import Mathlib

set_option linter.unusedVariables false

namespace ElevSim

/-- Elevator status. The Python model uses the strings "idle", "moving_up",
"moving_down" (elevator_model.py); represented as a closed variant. -/
inductive Status
  | idle
  | movingUp
  | movingDown
deriving DecidableEq

/-- One Event Sink notification, mirroring the calls the core makes on
`ElevatorDatabase` (database.py: `update_elevator_status`, `record_demand`,
`start_journey`, `end_journey`, `start_resting_period`, `end_resting_period`). -/
inductive Event
  | updateStatus (elevatorId : Nat) (floor : Int) (status : Status)
  | recordDemand (originFloor destinationFloor : Int) (elevatorId : Nat) (waitTime : Nat)
  | startJourney (journeyId elevatorId : Nat) (startFloor : Int) (passengerCount : Nat)
  | endJourney (journeyId : Nat) (endFloor : Int)
  | startResting (restingId elevatorId : Nat) (floor : Int)
  | endResting (restingId : Nat)
deriving DecidableEq

/-- The Event Sink state: the chronological notification trace plus the sqlite
rowid counters of the journeys and resting_periods tables. sqlite rowids of an
empty table start at 1, so every allocated handle is positive and Python
truthiness of a stored handle (`if self.current_journey_id:`) coincides with
the handle being present. -/
structure DB where
  trace : List Event
  nextJourneyId : Nat
  nextRestingId : Nat
deriving DecidableEq

/-- A database whose tables are empty (what `create_tables` yields on a new
file, and what `initialize_elevators` restores: DELETE FROM every table resets
the implicit rowid counters of journeys and resting_periods back to 1). -/
def DB.fresh : DB := ⟨[], 1, 1⟩

def DB.update_elevator_status (db : DB) (elevator_id : Nat) (floor : Int) (status : Status) : DB :=
  { db with trace := db.trace ++ [Event.updateStatus elevator_id floor status] }

def DB.record_demand (db : DB) (origin_floor destination_floor : Int)
    (elevator_id wait_time : Nat) : DB :=
  { db with trace := db.trace ++ [Event.recordDemand origin_floor destination_floor elevator_id wait_time] }

def DB.start_journey (db : DB) (elevator_id : Nat) (start_floor : Int)
    (passenger_count : Nat) : Nat × DB :=
  (db.nextJourneyId,
   { db with
      trace := db.trace ++ [Event.startJourney db.nextJourneyId elevator_id start_floor passenger_count],
      nextJourneyId := db.nextJourneyId + 1 })

def DB.end_journey (db : DB) (journey_id : Nat) (end_floor : Int) : DB :=
  { db with trace := db.trace ++ [Event.endJourney journey_id end_floor] }

def DB.start_resting_period (db : DB) (elevator_id : Nat) (floor : Int) : Nat × DB :=
  (db.nextRestingId,
   { db with
      trace := db.trace ++ [Event.startResting db.nextRestingId elevator_id floor],
      nextRestingId := db.nextRestingId + 1 })

def DB.end_resting_period (db : DB) (resting_id : Nat) : DB :=
  { db with trace := db.trace ++ [Event.endResting resting_id] }

/-- `initialize_elevators` clears every table (restoring the fresh rowid
counters); the per-elevator row inserts carry no interval/demand information
and the elevator rows themselves are re-recorded by each `Elevator.__init__`
status update. -/
def DB.initialize_elevators (db : DB) (num_elevators num_floors : Nat) : DB :=
  DB.fresh

/-- The `Elevator` object of elevator_model.py: identity, mutable position and
status, and the transient open resting-period/journey handles. -/
structure Elevator where
  id : Nat
  current_floor : Int
  status : Status
  total_floors : Nat
  current_resting_id : Option Nat
  current_journey_id : Option Nat
deriving DecidableEq

/-- `Elevator.start_resting`: opens a resting period only when idle with no
resting period currently open. -/
def Elevator.start_resting (e : Elevator) (db : DB) : Elevator × DB :=
  if e.status = Status.idle ∧ e.current_resting_id = none then
    let rdb := db.start_resting_period e.id e.current_floor
    ({ e with current_resting_id := some rdb.1 }, rdb.2)
  else (e, db)

/-- `Elevator.end_resting`: closes the open resting period if one exists
(`is not None` check). -/
def Elevator.end_resting (e : Elevator) (db : DB) : Elevator × DB :=
  match e.current_resting_id with
  | some rid => ({ e with current_resting_id := none }, db.end_resting_period rid)
  | none => (e, db)

/-- `Elevator.__init__`: floor 0, idle, no open handles; records the initial
status and opens the first resting period. -/
def Elevator.make (id : Nat) (total_floors : Nat) (db : DB) : Elevator × DB :=
  let e : Elevator := ⟨id, 0, Status.idle, total_floors, none, none⟩
  let db1 := db.update_elevator_status id 0 Status.idle
  e.start_resting db1

/-- `Elevator.move`. Returns the travel time (the floor distance; the
`time.sleep` pacing has no observable effect on the model) together with the
updated elevator and sink. The resting-period close happens only under
`self.status == "idle" and self.current_resting_id` — handles are positive
(sqlite rowids), so the truthiness test is presence of the handle. -/
def Elevator.move (e : Elevator) (db : DB) (destination_floor : Int) : Nat × Elevator × DB :=
  if e.current_floor = destination_floor then
    (0, e, db)
  else
    let closed : Elevator × DB :=
      match e.status, e.current_resting_id with
      | Status.idle, some rid => ({ e with current_resting_id := none }, db.end_resting_period rid)
      | _, _ => (e, db)
    let e2 := { closed.1 with
      status := if destination_floor > e.current_floor then Status.movingUp else Status.movingDown }
    let db2 := closed.2.update_elevator_status e2.id e2.current_floor e2.status
    let travel_time := (destination_floor - e.current_floor).natAbs
    let e3 := { e2 with current_floor := destination_floor, status := Status.idle }
    let db3 := db2.update_elevator_status e3.id e3.current_floor e3.status
    let rdb := db3.start_resting_period e3.id e3.current_floor
    (travel_time, { e3 with current_resting_id := some rdb.1 }, rdb.2)

/-- `Elevator.start_journey`: opens a journey with the sink and stores the
returned handle, unconditionally overwriting whatever handle was stored. -/
def Elevator.start_journey (e : Elevator) (db : DB) (start_floor : Int)
    (passenger_count : Nat) : Nat × Elevator × DB :=
  let jdb := db.start_journey e.id start_floor passenger_count
  (jdb.1, { e with current_journey_id := some jdb.1 }, jdb.2)

/-- `Elevator.end_journey`: closes the open journey if the stored handle is
truthy (handles are positive rowids, so: present). -/
def Elevator.end_journey (e : Elevator) (db : DB) (end_floor : Int) : Elevator × DB :=
  match e.current_journey_id with
  | some jid => ({ e with current_journey_id := none }, db.end_journey jid end_floor)
  | none => (e, db)

/-- `Elevator.move_to_optimal_resting_floor`: only moves when idle; reports
whether an actual move occurred (`travel_time > 0`). -/
def Elevator.move_to_optimal_resting_floor (e : Elevator) (db : DB)
    (optimal_floor : Int) : Bool × Elevator × DB :=
  if e.status ≠ Status.idle then (false, e, db)
  else
    let mv := e.move db optimal_floor
    (decide (0 < mv.1), mv.2)

/-- The `ElevatorSystem` of elevator_model.py. -/
structure ElevatorSystem where
  num_elevators : Nat
  num_floors : Nat
  elevators : List Elevator
deriving DecidableEq

/-- The `for i in range(1, num_elevators + 1)` construction loop: builds
`count` elevators with ids `i, i+1, ...`, threading the sink. -/
def buildFleet (total_floors : Nat) : Nat → Nat → DB → List Elevator × DB
  | _, 0, db => ([], db)
  | i, Nat.succ k, db =>
    let edb := Elevator.make i total_floors db
    let rest := buildFleet total_floors (i + 1) k edb.2
    (edb.1 :: rest.1, rest.2)

/-- `ElevatorSystem.__init__`. -/
def ElevatorSystem.make (num_elevators num_floors : Nat) (db : DB) : ElevatorSystem × DB :=
  let db0 := db.initialize_elevators num_elevators num_floors
  let fdb := buildFleet num_floors 1 num_elevators db0
  ({ num_elevators := num_elevators, num_floors := num_floors, elevators := fdb.1 }, fdb.2)

/-- Python `ValueError` (malformed request / floor) and the `AttributeError`
crash that `request_elevator` would hit dereferencing `assigned_elevator`
(`None`) on an empty fleet. -/
inductive DispatchError
  | invalidRequest (msg : String)
  | noneType
deriving DecidableEq

/-- The nearest-elevator scan of `request_elevator`: start with
`assigned_elevator = None, min_distance = inf` and replace the best candidate
exactly on `distance < min_distance`. The accumulator additionally carries the
list index of the candidate, standing in for Python's mutation of the selected
object in place. -/
def selectLoop (origin_floor : Int) :
    List Elevator → Nat → Option (Nat × Elevator × Nat) → Option (Nat × Elevator × Nat)
  | [], _, best => best
  | e :: rest, i, best =>
    let distance := (e.current_floor - origin_floor).natAbs
    let best2 :=
      match best with
      | none => some (i, e, distance)
      | some (bi, be, bd) => if distance < bd then some (i, e, distance) else some (bi, be, bd)
    selectLoop origin_floor rest (i + 1) best2

/-- `ElevatorSystem.request_elevator`. Validation errors leave the state
untouched (the Python exception propagates before any mutation). -/
def ElevatorSystem.request_elevator (sys : ElevatorSystem) (db : DB)
    (origin_floor destination_floor : Int) :
    Except DispatchError (Nat × Nat) × ElevatorSystem × DB :=
  if origin_floor = destination_floor then
    (Except.error (DispatchError.invalidRequest "Origin and destination floors cannot be the same"),
     sys, db)
  else if ¬ (0 ≤ origin_floor ∧ origin_floor < (sys.num_floors : Int) ∧
      0 ≤ destination_floor ∧ destination_floor < (sys.num_floors : Int)) then
    (Except.error (DispatchError.invalidRequest "Floors must be between 0 and num_floors - 1"),
     sys, db)
  else
    match selectLoop origin_floor sys.elevators 0 none with
    | none => (Except.error DispatchError.noneType, sys, db)
    | some (idx, assigned, min_distance) =>
      let wait_time := min_distance
      let db1 := db.record_demand origin_floor destination_floor assigned.id wait_time
      let sj := assigned.start_journey db1 assigned.current_floor 1
      let mv1 := sj.2.1.move sj.2.2 origin_floor
      let mv2 := mv1.2.1.move mv1.2.2 destination_floor
      let ej := mv2.2.1.end_journey mv2.2.2 destination_floor
      (Except.ok (ej.1.id, mv1.1 + mv2.1),
       { sys with elevators := sys.elevators.set idx ej.1 }, ej.2)

/-- `ElevatorSystem.get_elevators_status`: a read-only snapshot. -/
def ElevatorSystem.get_elevators_status (sys : ElevatorSystem) : List (Nat × Int × Status) :=
  sys.elevators.map (fun e => (e.id, e.current_floor, e.status))

/-- The `for elevator in self.elevators` loop of
`move_elevator_to_resting_floor`: the first elevator matching the id and idle
is moved and `True` returned (the inner boolean result is discarded);
otherwise `False`. -/
def repositionLoop (db : DB) (elevator_id : Nat) (optimal_floor : Int) :
    List Elevator → Bool × List Elevator × DB
  | [] => (false, [], db)
  | e :: rest =>
    if e.id = elevator_id ∧ e.status = Status.idle then
      let mv := e.move_to_optimal_resting_floor db optimal_floor
      (true, mv.2.1 :: rest, mv.2.2)
    else
      let r := repositionLoop db elevator_id optimal_floor rest
      (r.1, e :: r.2.1, r.2.2)

/-- `ElevatorSystem.move_elevator_to_resting_floor`: raises `ValueError`
(modelled as the error branch) on an out-of-range floor, otherwise scans the
fleet. -/
def ElevatorSystem.move_elevator_to_resting_floor (sys : ElevatorSystem) (db : DB)
    (elevator_id : Nat) (optimal_floor : Int) :
    Except DispatchError Bool × ElevatorSystem × DB :=
  if ¬ (0 ≤ optimal_floor ∧ optimal_floor < (sys.num_floors : Int)) then
    (Except.error (DispatchError.invalidRequest "Floor must be between 0 and num_floors - 1"),
     sys, db)
  else
    let r := repositionLoop db elevator_id optimal_floor sys.elevators
    (Except.ok r.1, { sys with elevators := r.2.1 }, r.2.2)

/-- One public Control Surface operation. -/
inductive Op
  | request (origin_floor destination_floor : Int)
  | reposition (elevator_id : Nat) (floor : Int)
  | status
deriving DecidableEq

/-- Run one public operation (`get_elevators_status` is read-only). -/
def step : ElevatorSystem × DB → Op → ElevatorSystem × DB
  | (sys, db), Op.request o d => ((sys.request_elevator db o d).2.1, (sys.request_elevator db o d).2.2)
  | (sys, db), Op.reposition i f =>
      ((sys.move_elevator_to_resting_floor db i f).2.1, (sys.move_elevator_to_resting_floor db i f).2.2)
  | (sys, db), Op.status => (sys, db)

/-- Run a sequence of public operations. -/
def run (s : ElevatorSystem × DB) (ops : List Op) : ElevatorSystem × DB :=
  ops.foldl step s

/-! ## Derived views of the notification trace

A resting period (journey) is open at a point of the trace when its start
notification has been received and its end notification has not. -/

/-- Effect of one event on the list of open `(elevatorId, restingId)` pairs:
`start_resting_period` inserts, `end_resting_period` removes by handle. -/
def restPairsStep (acc : List (Nat × Nat)) : Event → List (Nat × Nat)
  | Event.startResting rid eid _ => acc ++ [(eid, rid)]
  | Event.endResting rid => acc.filter (fun p => p.2 ≠ rid)
  | _ => acc

/-- Open resting periods after a trace, as `(elevatorId, restingId)` pairs. -/
def openRestPairs (tr : List Event) : List (Nat × Nat) :=
  tr.foldl restPairsStep []

/-- Effect of one event on the list of open `(elevatorId, journeyId)` pairs. -/
def jourPairsStep (acc : List (Nat × Nat)) : Event → List (Nat × Nat)
  | Event.startJourney jid eid _ _ => acc ++ [(eid, jid)]
  | Event.endJourney jid _ => acc.filter (fun p => p.2 ≠ jid)
  | _ => acc

/-- Open journeys after a trace, as `(elevatorId, journeyId)` pairs. -/
def openJourPairs (tr : List Event) : List (Nat × Nat) :=
  tr.foldl jourPairsStep []

/-- The resting-period handles open for one elevator after a trace. -/
def openR (eid : Nat) (tr : List Event) : List Nat :=
  ((openRestPairs tr).filter (fun p => p.1 = eid)).map Prod.snd

/-- The journey handles open for one elevator after a trace. -/
def openJ (eid : Nat) (tr : List Event) : List Nat :=
  ((openJourPairs tr).filter (fun p => p.1 = eid)).map Prod.snd

/-- Number of `record_demand` notifications in a trace. -/
def demandCount (tr : List Event) : Nat :=
  tr.countP (fun ev => match ev with | Event.recordDemand _ _ _ _ => true | _ => false)

/-- Number of `start_journey` notifications in a trace. -/
def journeyStartCount (tr : List Event) : Nat :=
  tr.countP (fun ev => match ev with | Event.startJourney _ _ _ _ => true | _ => false)

/-- Number of `end_journey` notifications in a trace. -/
def journeyEndCount (tr : List Event) : Nat :=
  tr.countP (fun ev => match ev with | Event.endJourney _ _ => true | _ => false)

/-- Every prefix of the trace (every observable instant between notifications)
shows at most one open resting period and at most one open journey per
elevator. -/
def PrefSafe (tr : List Event) : Prop :=
  ∀ p, p <+: tr → ∀ eid, (openR eid p).length ≤ 1 ∧ (openJ eid p).length ≤ 1

end ElevSim

deriving instance DecidableEq for Except

namespace ElevSim

/-- The open resting pair each elevator holds in its transient handle. -/
def restingPairs (l : List Elevator) : List (Nat × Nat) :=
  l.filterMap (fun e => e.current_resting_id.map (fun r => (e.id, r)))

/-- Boundary invariant: between public Dispatcher operations every elevator is
idle with exactly its one open resting period, no journey is open, floors are
in range, ids are `1..num_elevators`, all sink handles in use are below the
rowid counter, and every past observable instant was safe. -/
structure Inv (sys : ElevatorSystem) (db : DB) : Prop where
  ids : sys.elevators.map (fun e => e.id) = List.range' 1 sys.num_elevators
  idle : ∀ e ∈ sys.elevators, e.status = Status.idle
  lb : ∀ e ∈ sys.elevators, 0 ≤ e.current_floor
  ub : ∀ e ∈ sys.elevators, e.current_floor < (sys.num_floors : Int)
  jnone : ∀ e ∈ sys.elevators, e.current_journey_id = none
  rsome : ∀ e ∈ sys.elevators, e.current_resting_id ≠ none
  rperm : List.Perm (openRestPairs db.trace) (restingPairs sys.elevators)
  rnodup : ((openRestPairs db.trace).map Prod.snd).Nodup
  rfresh : ∀ p ∈ openRestPairs db.trace, p.2 < db.nextRestingId
  jempty : openJourPairs db.trace = []
  pref : PrefSafe db.trace

/-! ### Step lemmas for the trace views -/

@[simp] lemma restPairsStep_updateStatus (acc : List (Nat × Nat)) (i : Nat) (f : Int) (st : Status) :
    restPairsStep acc (Event.updateStatus i f st) = acc := rfl

@[simp] lemma restPairsStep_recordDemand (acc : List (Nat × Nat)) (o d : Int) (i w : Nat) :
    restPairsStep acc (Event.recordDemand o d i w) = acc := rfl

@[simp] lemma restPairsStep_startJourney (acc : List (Nat × Nat)) (j i : Nat) (f : Int) (c : Nat) :
    restPairsStep acc (Event.startJourney j i f c) = acc := rfl

@[simp] lemma restPairsStep_endJourney (acc : List (Nat × Nat)) (j : Nat) (f : Int) :
    restPairsStep acc (Event.endJourney j f) = acc := rfl

@[simp] lemma restPairsStep_startResting (acc : List (Nat × Nat)) (r i : Nat) (f : Int) :
    restPairsStep acc (Event.startResting r i f) = acc ++ [(i, r)] := rfl

@[simp] lemma restPairsStep_endResting (acc : List (Nat × Nat)) (r : Nat) :
    restPairsStep acc (Event.endResting r) = acc.filter (fun p => p.2 ≠ r) := rfl

@[simp] lemma jourPairsStep_updateStatus (acc : List (Nat × Nat)) (i : Nat) (f : Int) (st : Status) :
    jourPairsStep acc (Event.updateStatus i f st) = acc := rfl

@[simp] lemma jourPairsStep_recordDemand (acc : List (Nat × Nat)) (o d : Int) (i w : Nat) :
    jourPairsStep acc (Event.recordDemand o d i w) = acc := rfl

@[simp] lemma jourPairsStep_startJourney (acc : List (Nat × Nat)) (j i : Nat) (f : Int) (c : Nat) :
    jourPairsStep acc (Event.startJourney j i f c) = acc ++ [(i, j)] := rfl

@[simp] lemma jourPairsStep_endJourney (acc : List (Nat × Nat)) (j : Nat) (f : Int) :
    jourPairsStep acc (Event.endJourney j f) = acc.filter (fun p => p.2 ≠ j) := rfl

@[simp] lemma jourPairsStep_startResting (acc : List (Nat × Nat)) (r i : Nat) (f : Int) :
    jourPairsStep acc (Event.startResting r i f) = acc := rfl

@[simp] lemma jourPairsStep_endResting (acc : List (Nat × Nat)) (r : Nat) :
    jourPairsStep acc (Event.endResting r) = acc := rfl

@[simp] lemma openRestPairs_nil : openRestPairs [] = [] := rfl

@[simp] lemma openJourPairs_nil : openJourPairs [] = [] := rfl

@[simp] lemma openRestPairs_append (t u : List Event) :
    openRestPairs (t ++ u) = u.foldl restPairsStep (openRestPairs t) := by
  simp [openRestPairs, List.foldl_append]

@[simp] lemma openJourPairs_append (t u : List Event) :
    openJourPairs (t ++ u) = u.foldl jourPairsStep (openJourPairs t) := by
  simp [openJourPairs, List.foldl_append]

@[simp] lemma demandCount_append (t u : List Event) :
    demandCount (t ++ u) = demandCount t + demandCount u := by
  simp [demandCount, List.countP_append]

@[simp] lemma journeyStartCount_append (t u : List Event) :
    journeyStartCount (t ++ u) = journeyStartCount t + journeyStartCount u := by
  simp [journeyStartCount, List.countP_append]

@[simp] lemma journeyEndCount_append (t u : List Event) :
    journeyEndCount (t ++ u) = journeyEndCount t + journeyEndCount u := by
  simp [journeyEndCount, List.countP_append]

lemma openR_length (eid : Nat) (tr : List Event) :
    (openR eid tr).length = (openRestPairs tr).countP (fun p => p.1 = eid) := by
  simp [openR, List.countP_eq_length_filter]

lemma openJ_length (eid : Nat) (tr : List Event) :
    (openJ eid tr).length = (openJourPairs tr).countP (fun p => p.1 = eid) := by
  simp [openJ, List.countP_eq_length_filter]

/-! ### Elevator method computation lemmas -/

lemma start_journey_eq (e : Elevator) (db : DB) (f : Int) (c : Nat) :
    e.start_journey db f c =
      (db.nextJourneyId,
       { e with current_journey_id := some db.nextJourneyId },
       { db with
          trace := db.trace ++ [Event.startJourney db.nextJourneyId e.id f c],
          nextJourneyId := db.nextJourneyId + 1 }) := rfl

lemma end_journey_some (e : Elevator) (db : DB) (f : Int) (jid : Nat)
    (h : e.current_journey_id = some jid) :
    e.end_journey db f =
      ({ e with current_journey_id := none },
       { db with trace := db.trace ++ [Event.endJourney jid f] }) := by
  simp [Elevator.end_journey, h, DB.end_journey]

lemma move_noop (e : Elevator) (db : DB) : e.move db e.current_floor = (0, e, db) := by
  simp [Elevator.move]

lemma move_real (e : Elevator) (db : DB) (f : Int) (r : Nat)
    (hne : e.current_floor ≠ f) (hst : e.status = Status.idle)
    (hr : e.current_resting_id = some r) :
    e.move db f =
      ((f - e.current_floor).natAbs,
       { e with current_floor := f, status := Status.idle,
                current_resting_id := some db.nextRestingId },
       { db with
          trace := db.trace ++
            [Event.endResting r,
             Event.updateStatus e.id e.current_floor
               (if f > e.current_floor then Status.movingUp else Status.movingDown),
             Event.updateStatus e.id f Status.idle,
             Event.startResting db.nextRestingId e.id f],
          nextRestingId := db.nextRestingId + 1 }) := by
  obtain ⟨eid, cf, st, tf, rid, jid⟩ := e
  simp only at hst hr hne
  subst hst hr
  simp [Elevator.move, hne, DB.end_resting_period, DB.update_elevator_status,
    DB.start_resting_period]

end ElevSim

namespace ElevSim

lemma move_dist (e : Elevator) (db : DB) (f : Int) :
    (e.move db f).1 = (f - e.current_floor).natAbs := by
  by_cases hf : e.current_floor = f
  · subst hf; simp [move_noop]
  · obtain ⟨eid, cf, st, tf, rid, jid⟩ := e
    simp only at hf
    cases st <;> cases rid <;>
      simp [Elevator.move, hf, DB.end_resting_period, DB.update_elevator_status,
        DB.start_resting_period]

lemma move_floor (e : Elevator) (db : DB) (f : Int) :
    (e.move db f).2.1.current_floor = f := by
  by_cases hf : e.current_floor = f
  · subst hf; simp [move_noop]
  · obtain ⟨eid, cf, st, tf, rid, jid⟩ := e
    simp only at hf
    cases st <;> cases rid <;>
      simp [Elevator.move, hf, DB.end_resting_period, DB.update_elevator_status,
        DB.start_resting_period]

lemma move_id (e : Elevator) (db : DB) (f : Int) :
    (e.move db f).2.1.id = e.id := by
  by_cases hf : e.current_floor = f
  · subst hf; simp [move_noop]
  · obtain ⟨eid, cf, st, tf, rid, jid⟩ := e
    simp only at hf
    cases st <;> cases rid <;>
      simp [Elevator.move, hf, DB.end_resting_period, DB.update_elevator_status,
        DB.start_resting_period]

lemma move_total_floors (e : Elevator) (db : DB) (f : Int) :
    (e.move db f).2.1.total_floors = e.total_floors := by
  by_cases hf : e.current_floor = f
  · subst hf; simp [move_noop]
  · obtain ⟨eid, cf, st, tf, rid, jid⟩ := e
    simp only at hf
    cases st <;> cases rid <;>
      simp [Elevator.move, hf, DB.end_resting_period, DB.update_elevator_status,
        DB.start_resting_period]

lemma move_journey (e : Elevator) (db : DB) (f : Int) :
    (e.move db f).2.1.current_journey_id = e.current_journey_id := by
  by_cases hf : e.current_floor = f
  · subst hf; simp [move_noop]
  · obtain ⟨eid, cf, st, tf, rid, jid⟩ := e
    simp only at hf
    cases st <;> cases rid <;>
      simp [Elevator.move, hf, DB.end_resting_period, DB.update_elevator_status,
        DB.start_resting_period]

lemma move_status (e : Elevator) (db : DB) (f : Int) (hne : e.current_floor ≠ f) :
    (e.move db f).2.1.status = Status.idle := by
  obtain ⟨eid, cf, st, tf, rid, jid⟩ := e
  simp only at hne
  cases st <;> cases rid <;>
    simp [Elevator.move, hne, DB.end_resting_period, DB.update_elevator_status,
      DB.start_resting_period]

lemma move_nextJourneyId (e : Elevator) (db : DB) (f : Int) :
    (e.move db f).2.2.nextJourneyId = db.nextJourneyId := by
  by_cases hf : e.current_floor = f
  · subst hf; simp [move_noop]
  · obtain ⟨eid, cf, st, tf, rid, jid⟩ := e
    simp only at hf
    cases st <;> cases rid <;>
      simp [Elevator.move, hf, DB.end_resting_period, DB.update_elevator_status,
        DB.start_resting_period]

lemma move_jourPairs (e : Elevator) (db : DB) (f : Int) :
    openJourPairs (e.move db f).2.2.trace = openJourPairs db.trace := by
  by_cases hf : e.current_floor = f
  · subst hf; simp [move_noop]
  · obtain ⟨eid, cf, st, tf, rid, jid⟩ := e
    simp only at hf
    cases st <;> cases rid <;>
      simp [Elevator.move, hf, DB.end_resting_period, DB.update_elevator_status,
        DB.start_resting_period]

lemma move_demandCount (e : Elevator) (db : DB) (f : Int) :
    demandCount (e.move db f).2.2.trace = demandCount db.trace := by
  by_cases hf : e.current_floor = f
  · subst hf; simp [move_noop]
  · obtain ⟨eid, cf, st, tf, rid, jid⟩ := e
    simp only at hf
    cases st <;> cases rid <;>
      simp [Elevator.move, hf, DB.end_resting_period, DB.update_elevator_status,
        DB.start_resting_period, demandCount, List.countP_cons]

lemma move_journeyStartCount (e : Elevator) (db : DB) (f : Int) :
    journeyStartCount (e.move db f).2.2.trace = journeyStartCount db.trace := by
  by_cases hf : e.current_floor = f
  · subst hf; simp [move_noop]
  · obtain ⟨eid, cf, st, tf, rid, jid⟩ := e
    simp only at hf
    cases st <;> cases rid <;>
      simp [Elevator.move, hf, DB.end_resting_period, DB.update_elevator_status,
        DB.start_resting_period, journeyStartCount, List.countP_cons]

lemma move_journeyEndCount (e : Elevator) (db : DB) (f : Int) :
    journeyEndCount (e.move db f).2.2.trace = journeyEndCount db.trace := by
  by_cases hf : e.current_floor = f
  · subst hf; simp [move_noop]
  · obtain ⟨eid, cf, st, tf, rid, jid⟩ := e
    simp only at hf
    cases st <;> cases rid <;>
      simp [Elevator.move, hf, DB.end_resting_period, DB.update_elevator_status,
        DB.start_resting_period, journeyEndCount, List.countP_cons]

end ElevSim

namespace ElevSim

lemma selectLoop_some_spec (o : Int) (l : List Elevator) :
    ∀ (i bi : Nat) (be : Elevator) (bd : Nat),
      (selectLoop o l i (some (bi, be, bd)) = some (bi, be, bd) ∧
        ∀ (m : Nat) (em : Elevator), l[m]? = some em → bd ≤ (em.current_floor - o).natAbs) ∨
      (∃ j a, l[j]? = some a ∧
        selectLoop o l i (some (bi, be, bd)) = some (i + j, a, (a.current_floor - o).natAbs) ∧
        (a.current_floor - o).natAbs < bd ∧
        (∀ (m : Nat) (em : Elevator), l[m]? = some em → (a.current_floor - o).natAbs ≤ (em.current_floor - o).natAbs) ∧
        (∀ (m : Nat) (em : Elevator), m < j → l[m]? = some em →
          (a.current_floor - o).natAbs < (em.current_floor - o).natAbs)) := by
  induction l with
  | nil =>
    intro i bi be bd
    exact Or.inl ⟨rfl, by intro m em h; simp at h⟩
  | cons e rest ih =>
    intro i bi be bd
    by_cases hd : (e.current_floor - o).natAbs < bd
    · have hstep : selectLoop o (e :: rest) i (some (bi, be, bd)) =
          selectLoop o rest (i + 1) (some (i, e, (e.current_floor - o).natAbs)) := by
        simp [selectLoop, hd]
      rcases ih (i + 1) i e (e.current_floor - o).natAbs with
        ⟨heq, hall⟩ | ⟨j, a, hget, heq, hlt, hall, hfirst⟩
      · refine Or.inr ⟨0, e, by simp, ?_, hd, ?_, ?_⟩
        · rw [hstep, heq]; simp
        · intro m em h
          cases m with
          | zero => simp at h; subst h; exact le_refl _
          | succ k => simp at h; exact hall k em h
        · intro m em hm h; omega
      · refine Or.inr ⟨j + 1, a, by simpa using hget, ?_, lt_trans hlt hd, ?_, ?_⟩
        · rw [hstep, heq]
          have : i + 1 + j = i + (j + 1) := by omega
          rw [this]
        · intro m em h
          cases m with
          | zero => simp at h; subst h; exact le_of_lt hlt
          | succ k => simp at h; exact hall k em h
        · intro m em hm h
          cases m with
          | zero => simp at h; subst h; exact hlt
          | succ k =>
            simp at h
            exact hfirst k em (by omega) h
    · have hstep : selectLoop o (e :: rest) i (some (bi, be, bd)) =
          selectLoop o rest (i + 1) (some (bi, be, bd)) := by
        simp [selectLoop, hd]
      rcases ih (i + 1) bi be bd with
        ⟨heq, hall⟩ | ⟨j, a, hget, heq, hlt, hall, hfirst⟩
      · refine Or.inl ⟨by rw [hstep, heq], ?_⟩
        intro m em h
        cases m with
        | zero => simp at h; subst h; omega
        | succ k => simp at h; exact hall k em h
      · refine Or.inr ⟨j + 1, a, by simpa using hget, ?_, hlt, ?_, ?_⟩
        · rw [hstep, heq]
          have : i + 1 + j = i + (j + 1) := by omega
          rw [this]
        · intro m em h
          cases m with
          | zero => simp at h; subst h; omega
          | succ k => simp at h; exact hall k em h
        · intro m em hm h
          cases m with
          | zero => simp at h; subst h; omega
          | succ k =>
            simp at h
            exact hfirst k em (by omega) h

lemma selectLoop_none_spec (o : Int) (l : List Elevator) (hne : l ≠ []) :
    ∃ j a, l[j]? = some a ∧
      selectLoop o l 0 none = some (j, a, (a.current_floor - o).natAbs) ∧
      (∀ (m : Nat) (em : Elevator), l[m]? = some em → (a.current_floor - o).natAbs ≤ (em.current_floor - o).natAbs) ∧
      (∀ (m : Nat) (em : Elevator), m < j → l[m]? = some em →
        (a.current_floor - o).natAbs < (em.current_floor - o).natAbs) := by
  cases l with
  | nil => exact absurd rfl hne
  | cons e rest =>
    have hstep : selectLoop o (e :: rest) 0 none =
        selectLoop o rest 1 (some (0, e, (e.current_floor - o).natAbs)) := by
      simp [selectLoop]
    rcases selectLoop_some_spec o rest 1 0 e (e.current_floor - o).natAbs with
      ⟨heq, hall⟩ | ⟨j, a, hget, heq, hlt, hall, hfirst⟩
    · refine ⟨0, e, by simp, by rw [hstep, heq], ?_, ?_⟩
      · intro m em h
        cases m with
        | zero => simp at h; subst h; exact le_refl _
        | succ k => simp at h; exact hall k em h
      · intro m em hm h; omega
    · refine ⟨j + 1, a, by simpa using hget, by rw [hstep, heq, Nat.add_comm 1 j], ?_, ?_⟩
      · intro m em h
        cases m with
        | zero => simp at h; subst h; exact le_of_lt hlt
        | succ k => simp at h; exact hall k em h
      · intro m em hm h
        cases m with
        | zero => simp at h; subst h; exact hlt
        | succ k =>
          simp at h
          exact hfirst k em (by omega) h

lemma selectLoop_floors_only (o : Int) :
    ∀ (l1 l2 : List Elevator) (i : Nat) (acc1 acc2 : Option (Nat × Elevator × Nat)),
      l1.map (fun e => e.current_floor) = l2.map (fun e => e.current_floor) →
      Option.map (fun x => (x.1, x.2.2)) acc1 = Option.map (fun x => (x.1, x.2.2)) acc2 →
      Option.map (fun x => (x.1, x.2.2)) (selectLoop o l1 i acc1) =
        Option.map (fun x => (x.1, x.2.2)) (selectLoop o l2 i acc2) := by
  intro l1
  induction l1 with
  | nil =>
    intro l2 i acc1 acc2 hmap hacc
    cases l2 with
    | nil => simpa [selectLoop] using hacc
    | cons e2 t2 => simp at hmap
  | cons e1 t1 ih =>
    intro l2 i acc1 acc2 hmap hacc
    cases l2 with
    | nil => simp at hmap
    | cons e2 t2 =>
      simp only [List.map_cons, List.cons.injEq] at hmap
      obtain ⟨hf, ht⟩ := hmap
      show Option.map (fun x => (x.1, x.2.2)) (selectLoop o t1 (i + 1) _) =
        Option.map (fun x => (x.1, x.2.2)) (selectLoop o t2 (i + 1) _)
      apply ih t2 (i + 1) _ _ ht
      cases acc1 with
      | none =>
        cases acc2 with
        | none => simp [hf]
        | some b2 => simp at hacc
      | some b1 =>
        cases acc2 with
        | none => simp at hacc
        | some b2 =>
          obtain ⟨bi1, be1, bd1⟩ := b1
          obtain ⟨bi2, be2, bd2⟩ := b2
          simp at hacc
          obtain ⟨hbi, hbd⟩ := hacc
          subst hbi hbd
          rw [hf]
          by_cases hcond : (e2.current_floor - o).natAbs < bd1 <;> simp [hcond]

end ElevSim

namespace ElevSim

lemma request_invalid (sys : ElevatorSystem) (db : DB) (o d : Int)
    (h : o = d ∨ ¬ (0 ≤ o ∧ o < (sys.num_floors : Int) ∧ 0 ≤ d ∧ d < (sys.num_floors : Int))) :
    ∃ msg, sys.request_elevator db o d = (Except.error (DispatchError.invalidRequest msg), sys, db) := by
  by_cases he : o = d
  · refine ⟨"Origin and destination floors cannot be the same", ?_⟩
    rw [ElevatorSystem.request_elevator, if_pos he]
  · rcases h with h | h
    · exact absurd h he
    · refine ⟨"Floors must be between 0 and num_floors - 1", ?_⟩
      rw [ElevatorSystem.request_elevator, if_neg he, if_pos h]

lemma request_ok_unfold (sys : ElevatorSystem) (db : DB) (o d : Int)
    (idx : Nat) (a : Elevator) (dmin : Nat)
    (hod : o ≠ d)
    (hr : 0 ≤ o ∧ o < (sys.num_floors : Int) ∧ 0 ≤ d ∧ d < (sys.num_floors : Int))
    (hsel : selectLoop o sys.elevators 0 none = some (idx, a, dmin)) :
    sys.request_elevator db o d =
      (let db1 := db.record_demand o d a.id dmin
       let sj := a.start_journey db1 a.current_floor 1
       let mv1 := sj.2.1.move sj.2.2 o
       let mv2 := mv1.2.1.move mv1.2.2 d
       let ej := mv2.2.1.end_journey mv2.2.2 d
       (Except.ok (ej.1.id, mv1.1 + mv2.1),
        { sys with elevators := sys.elevators.set idx ej.1 }, ej.2)) := by
  rw [ElevatorSystem.request_elevator, if_neg hod, if_neg (by simpa using hr), hsel]

lemma reposition_invalid (sys : ElevatorSystem) (db : DB) (eid : Nat) (f : Int)
    (h : ¬ (0 ≤ f ∧ f < (sys.num_floors : Int))) :
    sys.move_elevator_to_resting_floor db eid f =
      (Except.error (DispatchError.invalidRequest "Floor must be between 0 and num_floors - 1"),
       sys, db) := by
  rw [ElevatorSystem.move_elevator_to_resting_floor, if_pos h]

lemma reposition_valid (sys : ElevatorSystem) (db : DB) (eid : Nat) (f : Int)
    (h : 0 ≤ f ∧ f < (sys.num_floors : Int)) :
    sys.move_elevator_to_resting_floor db eid f =
      (Except.ok (repositionLoop db eid f sys.elevators).1,
       { sys with elevators := (repositionLoop db eid f sys.elevators).2.1 },
       (repositionLoop db eid f sys.elevators).2.2) := by
  rw [ElevatorSystem.move_elevator_to_resting_floor, if_neg (by simpa using h)]

lemma repositionLoop_spec (db : DB) (eid : Nat) (f : Int) (l : List Elevator) :
    (repositionLoop db eid f l = (false, l, db) ∧
      ∀ e ∈ l, ¬ (e.id = eid ∧ e.status = Status.idle)) ∨
    (∃ idx e, l[idx]? = some e ∧ e.id = eid ∧ e.status = Status.idle ∧
      (∀ (m : Nat) (em : Elevator), m < idx → l[m]? = some em →
        ¬ (em.id = eid ∧ em.status = Status.idle)) ∧
      repositionLoop db eid f l =
        (true, l.set idx (e.move db f).2.1, (e.move db f).2.2)) := by
  induction l with
  | nil => exact Or.inl ⟨rfl, by simp⟩
  | cons e rest ih =>
    by_cases hc : e.id = eid ∧ e.status = Status.idle
    · right
      refine ⟨0, e, by simp, hc.1, hc.2, by intro m em hm h; omega, ?_⟩
      have hidle : e.move_to_optimal_resting_floor db f =
          (decide (0 < (e.move db f).1), (e.move db f).2) := by
        simp [Elevator.move_to_optimal_resting_floor, hc.2]
      simp [repositionLoop, hc, hidle]
    · rcases ih with ⟨heq, hall⟩ | ⟨idx, e2, hget, hid, hst, hbefore, heq⟩
      · left
        refine ⟨by simp [repositionLoop, hc, heq], ?_⟩
        intro x hx
        rcases List.mem_cons.1 hx with rfl | hx
        · exact hc
        · exact hall x hx
      · right
        refine ⟨idx + 1, e2, by simpa using hget, hid, hst, ?_, ?_⟩
        · intro m em hm h
          cases m with
          | zero => simp at h; subst h; exact hc
          | succ k => simp at h; exact hbefore k em (by omega) h
        · simp [repositionLoop, hc, heq]

end ElevSim

namespace ElevSim

lemma lookup_mem {α : Type} {l : List α} {n : Nat} {a : α} (h : l[n]? = some a) : a ∈ l := by
  induction l generalizing n with
  | nil => simp at h
  | cons x xs ih =>
    cases n with
    | zero => simp at h; simp [h]
    | succ k =>
      simp only [List.getElem?_cons_succ] at h
      exact List.mem_cons_of_mem _ (ih h)

lemma eq_take_cons_drop {α : Type} {l : List α} {n : Nat} {a : α} (h : l[n]? = some a) :
    l = l.take n ++ a :: l.drop (n + 1) := by
  rcases List.getElem?_eq_some.1 h with ⟨hn, hv⟩
  rw [← hv, List.getElem_cons_drop l n hn]
  exact (List.take_append_drop n l).symm

lemma set_middle {α : Type} (T D : List α) (a b : α) :
    (T ++ a :: D).set T.length b = T ++ b :: D := by
  rw [List.set_append_right _ _ (le_refl _)]
  simp

lemma countP_fst_filter_le (l : List (Nat × Nat)) (q : Nat × Nat → Bool) (i : Nat) :
    (l.filter q).countP (fun p => p.1 = i) ≤ l.countP (fun p => p.1 = i) :=
  (List.filter_sublist l).countP_le _

lemma filter_snd_eq_of_nodup {e r : Nat} : ∀ {l : List (Nat × Nat)},
    (l.map Prod.snd).Nodup → (e, r) ∈ l → l.filter (fun p => p.2 = r) = [(e, r)] := by
  intro l
  induction l with
  | nil => intro _ hmem; simp at hmem
  | cons x t ih =>
    intro hnodup hmem
    simp only [List.map_cons, List.nodup_cons] at hnodup
    obtain ⟨hx, ht⟩ := hnodup
    rcases List.mem_cons.1 hmem with heq | hmem2
    · subst heq
      have hempty : t.filter (fun p => p.2 = r) = [] := by
        rw [List.filter_eq_nil_iff]
        intro p hp
        simp only [decide_eq_true_eq]
        intro hpr
        apply hx
        have hmm : p.2 ∈ t.map Prod.snd := List.mem_map_of_mem Prod.snd hp
        rw [hpr] at hmm
        exact hmm
      simp [List.filter_cons, hempty]
    · have hxr : x.2 ≠ r := by
        intro hc
        exact hx (hc ▸ List.mem_map_of_mem Prod.snd hmem2)
      rw [List.filter_cons, if_neg (by simp [hxr])]
      exact ih ht hmem2

lemma perm_filter_pair {l : List (Nat × Nat)} {e r : Nat}
    (hnodup : (l.map Prod.snd).Nodup) (hmem : (e, r) ∈ l) :
    List.Perm l ((l.filter (fun p => p.2 ≠ r)) ++ [(e, r)]) := by
  have h1 := List.filter_append_perm (fun p : Nat × Nat => decide (p.2 = r)) l
  have h2 : (fun p : Nat × Nat => !decide (p.2 = r)) = (fun p : Nat × Nat => decide (p.2 ≠ r)) := by
    funext p
    simp
  rw [h2] at h1
  have h3 : l.filter (fun p => p.2 = r) = [(e, r)] := filter_snd_eq_of_nodup hnodup hmem
  have h4 : List.Perm l ([(e, r)] ++ l.filter (fun p => p.2 ≠ r)) := by
    rw [← h3]
    exact h1.symm
  exact h4.trans List.perm_append_comm

end ElevSim

namespace ElevSim

lemma prefix_append_cases {α : Type} {p t b : List α} (h : p <+: t ++ b) :
    p <+: t ∨ ∃ q, q <+: b ∧ p = t ++ q := by
  obtain ⟨s, hs⟩ := h
  rcases List.append_eq_append_iff.1 hs with ⟨u, hu1, hu2⟩ | ⟨u, hu1, hu2⟩
  · exact Or.inl ⟨u, hu1.symm⟩
  · exact Or.inr ⟨u, ⟨s, hu2.symm⟩, hu1⟩

lemma PrefSafe.rest_count {tr : List Event} (h : PrefSafe tr) (i : Nat) :
    (openRestPairs tr).countP (fun p => p.1 = i) ≤ 1 := by
  have h2 := (h tr List.prefix_rfl i).1
  rwa [openR_length] at h2

lemma PrefSafe.jour_count {tr : List Event} (h : PrefSafe tr) (i : Nat) :
    (openJourPairs tr).countP (fun p => p.1 = i) ≤ 1 := by
  have h2 := (h tr List.prefix_rfl i).2
  rwa [openJ_length] at h2

lemma countP_fst_singleton (e ρ i : Nat) :
    ([(e, ρ)] : List (Nat × Nat)).countP (fun p => p.1 = i) = if e = i then 1 else 0 := by
  by_cases hi : e = i <;> simp [List.countP_cons, hi]

lemma countP_fst_after_swap {l : List (Nat × Nat)} {e r : Nat} (ρ : Nat)
    (hnodup : (l.map Prod.snd).Nodup) (hmem : (e, r) ∈ l)
    (hcount : ∀ i : Nat, l.countP (fun p => p.1 = i) ≤ 1) (i : Nat) :
    ((l.filter (fun p => p.2 ≠ r)) ++ [(e, ρ)]).countP (fun p => p.1 = i) ≤ 1 := by
  rw [List.countP_append]
  by_cases hi : e = i
  · subst hi
    have hperm := (perm_filter_pair hnodup hmem).countP_eq (p := fun p => decide (p.1 = e))
    rw [List.countP_append] at hperm
    have hsing1 : ([(e, r)] : List (Nat × Nat)).countP (fun p => p.1 = e) = 1 := by
      simp [List.countP_cons]
    have hsing2 : ([(e, ρ)] : List (Nat × Nat)).countP (fun p => p.1 = e) = 1 := by
      simp [List.countP_cons]
    rw [hsing1] at hperm
    rw [hsing2]
    have hc := hcount e
    omega
  · have hsing2 : ([(e, ρ)] : List (Nat × Nat)).countP (fun p => p.1 = i) = 0 := by
      simp [List.countP_cons, hi]
    rw [hsing2]
    have h2 := le_trans (countP_fst_filter_le l (fun p => p.2 ≠ r) i) (hcount i)
    omega

lemma nodup_snd_after_swap {l : List (Nat × Nat)} {r ρ : Nat} (e : Nat)
    (hnodup : (l.map Prod.snd).Nodup)
    (hρ : ∀ x ∈ l.filter (fun p => p.2 ≠ r), x.2 ≠ ρ) :
    (((l.filter (fun p => p.2 ≠ r)) ++ [(e, ρ)]).map Prod.snd).Nodup := by
  rw [List.map_append]
  rw [List.nodup_append]
  refine ⟨?_, by simp, ?_⟩
  · exact List.Nodup.sublist (List.Sublist.map Prod.snd (List.filter_sublist l)) hnodup
  · intro x hx
    simp only [List.mem_map] at hx
    obtain ⟨y, hy, rfl⟩ := hx
    simp only [List.map_cons, List.map_nil, List.mem_singleton]
    exact fun hc => hρ y hy hc

lemma prefSafe_extend {t b : List Event}
    (hpref : PrefSafe t)
    (hstep : ∀ q, q <+: b → ∀ i : Nat,
      ((q.foldl restPairsStep (openRestPairs t)).countP (fun p => p.1 = i) ≤ 1) ∧
      ((q.foldl jourPairsStep (openJourPairs t)).countP (fun p => p.1 = i) ≤ 1)) :
    PrefSafe (t ++ b) := by
  intro p hp i
  rcases prefix_append_cases hp with hp2 | ⟨q, hq, rfl⟩
  · exact hpref p hp2 i
  · rw [openR_length, openJ_length, openRestPairs_append, openJourPairs_append]
    exact hstep q hq i

end ElevSim

namespace ElevSim

lemma move_inv (e : Elevator) (db : DB) (f : Int) (r : Nat)
    (hst : e.status = Status.idle) (hr : e.current_resting_id = some r)
    (hmem : (e.id, r) ∈ openRestPairs db.trace)
    (hnodup : ((openRestPairs db.trace).map Prod.snd).Nodup)
    (hfresh : ∀ p ∈ openRestPairs db.trace, p.2 < db.nextRestingId)
    (hpref : PrefSafe db.trace) :
    ∃ ρ : Nat,
      (e.move db f).2.1 = { e with current_floor := f, status := Status.idle,
                                   current_resting_id := some ρ } ∧
      openJourPairs (e.move db f).2.2.trace = openJourPairs db.trace ∧
      List.Perm (openRestPairs (e.move db f).2.2.trace)
        ((openRestPairs db.trace).filter (fun p => p.2 ≠ r) ++ [(e.id, ρ)]) ∧
      (∀ x ∈ (openRestPairs db.trace).filter (fun p => p.2 ≠ r), x.2 ≠ ρ) ∧
      (e.id, ρ) ∈ openRestPairs (e.move db f).2.2.trace ∧
      ((openRestPairs (e.move db f).2.2.trace).map Prod.snd).Nodup ∧
      (∀ p ∈ openRestPairs (e.move db f).2.2.trace, p.2 < (e.move db f).2.2.nextRestingId) ∧
      db.nextRestingId ≤ (e.move db f).2.2.nextRestingId ∧
      PrefSafe (e.move db f).2.2.trace := by
  by_cases hf : e.current_floor = f
  · subst hf
    rw [move_noop]
    refine ⟨r, ?_, rfl, perm_filter_pair hnodup hmem, ?_, hmem, hnodup, hfresh,
      le_refl _, hpref⟩
    · obtain ⟨eid, cf, st, tf, rid, jid⟩ := e
      simp only at hst hr
      subst hst hr
      rfl
    · intro x hx
      rw [List.mem_filter] at hx
      simpa using hx.2
  · have hmv := move_real e db f r hf hst hr
    have htr : (e.move db f).2.2.trace = db.trace ++
        [Event.endResting r,
         Event.updateStatus e.id e.current_floor
           (if f > e.current_floor then Status.movingUp else Status.movingDown),
         Event.updateStatus e.id f Status.idle,
         Event.startResting db.nextRestingId e.id f] := by rw [hmv]
    have hnext : (e.move db f).2.2.nextRestingId = db.nextRestingId + 1 := by rw [hmv]
    have helev : (e.move db f).2.1 = { e with current_floor := f, status := Status.idle,
                                              current_resting_id := some db.nextRestingId } := by
      rw [hmv]
    have hO : openRestPairs (e.move db f).2.2.trace =
        (openRestPairs db.trace).filter (fun p => p.2 ≠ r) ++ [(e.id, db.nextRestingId)] := by
      rw [htr]
      simp
    have hJ : openJourPairs (e.move db f).2.2.trace = openJourPairs db.trace := by
      rw [htr]
      simp
    have hfilter_ne : ∀ x ∈ (openRestPairs db.trace).filter (fun p => p.2 ≠ r),
        x.2 ≠ db.nextRestingId := by
      intro x hx
      rw [List.mem_filter] at hx
      exact Nat.ne_of_lt (hfresh x hx.1)
    refine ⟨db.nextRestingId, helev, hJ, ?_, hfilter_ne, ?_, ?_, ?_, ?_, ?_⟩
    · rw [hO]
    · rw [hO]
      exact List.mem_append_right _ (by simp)
    · rw [hO]
      exact nodup_snd_after_swap e.id hnodup hfilter_ne
    · rw [hO, hnext]
      intro p hp
      rcases List.mem_append.1 hp with hp2 | hp2
      · exact lt_trans (hfresh p (List.mem_of_mem_filter hp2)) (Nat.lt_succ_self _)
      · simp only [List.mem_singleton] at hp2
        subst hp2
        exact Nat.lt_succ_self _
    · rw [hnext]
      omega
    · rw [htr]
      apply prefSafe_extend hpref
      intro q hq i
      have hcases : q = [] ∨ q = [Event.endResting r] ∨
          q = [Event.endResting r,
               Event.updateStatus e.id e.current_floor
                 (if f > e.current_floor then Status.movingUp else Status.movingDown)] ∨
          q = [Event.endResting r,
               Event.updateStatus e.id e.current_floor
                 (if f > e.current_floor then Status.movingUp else Status.movingDown),
               Event.updateStatus e.id f Status.idle] ∨
          q = [Event.endResting r,
               Event.updateStatus e.id e.current_floor
                 (if f > e.current_floor then Status.movingUp else Status.movingDown),
               Event.updateStatus e.id f Status.idle,
               Event.startResting db.nextRestingId e.id f] := by
        rcases List.prefix_cons_iff.1 hq with rfl | ⟨q1, rfl, hq1⟩
        · exact Or.inl rfl
        rcases List.prefix_cons_iff.1 hq1 with rfl | ⟨q2, rfl, hq2⟩
        · exact Or.inr (Or.inl rfl)
        rcases List.prefix_cons_iff.1 hq2 with rfl | ⟨q3, rfl, hq3⟩
        · exact Or.inr (Or.inr (Or.inl rfl))
        rcases List.prefix_cons_iff.1 hq3 with rfl | ⟨q4, rfl, hq4⟩
        · exact Or.inr (Or.inr (Or.inr (Or.inl rfl)))
        rw [List.prefix_nil.1 hq4]
        exact Or.inr (Or.inr (Or.inr (Or.inr rfl)))
      rcases hcases with rfl | rfl | rfl | rfl | rfl <;>
        refine ⟨?_, ?_⟩ <;>
          simp only [List.foldl_cons, List.foldl_nil, restPairsStep_endResting,
            restPairsStep_updateStatus, restPairsStep_startResting, jourPairsStep_endResting,
            jourPairsStep_updateStatus, jourPairsStep_startResting] <;>
          first
            | exact hpref.rest_count i
            | exact hpref.jour_count i
            | exact le_trans (countP_fst_filter_le _ _ i) (hpref.rest_count i)
            | exact countP_fst_after_swap db.nextRestingId hnodup hmem
                (fun j => hpref.rest_count j) i

end ElevSim

namespace ElevSim

lemma Inv.ids_nodup {sys : ElevatorSystem} {db : DB} (h : Inv sys db) :
    (sys.elevators.map (fun e => e.id)).Nodup := by
  rw [h.ids]
  exact List.nodup_range' _ _

lemma restingPairs_append (T D : List Elevator) :
    restingPairs (T ++ D) = restingPairs T ++ restingPairs D := by
  simp [restingPairs]

lemma restingPairs_cons_some (a : Elevator) (D : List Elevator) (r : Nat)
    (h : a.current_resting_id = some r) :
    restingPairs (a :: D) = (a.id, r) :: restingPairs D := by
  simp [restingPairs, h]

lemma snd_ne_of_nodup_middle {PT PD : List (Nat × Nat)} {aid r : Nat}
    (h : ((PT ++ (aid, r) :: PD).map Prod.snd).Nodup) :
    (∀ x ∈ PT, x.2 ≠ r) ∧ (∀ x ∈ PD, x.2 ≠ r) := by
  rw [List.map_append, List.map_cons, List.nodup_append] at h
  obtain ⟨h1, h2, h3⟩ := h
  rw [List.nodup_cons] at h2
  constructor
  · intro x hx hc
    apply h3 (List.mem_map_of_mem Prod.snd hx)
    rw [hc]
    exact List.mem_cons_self _ _
  · intro x hx hc
    exact h2.1 (List.mem_map.2 ⟨x, hx, hc⟩)

lemma prefix_singleton_cases {α : Type} {q : List α} {a : α} (h : q <+: [a]) :
    q = [] ∨ q = [a] := by
  rcases List.prefix_cons_iff.1 h with rfl | ⟨t, rfl, ht⟩
  · exact Or.inl rfl
  · rw [List.prefix_nil.1 ht]
    exact Or.inr rfl

lemma prefSafe_snoc_demand {t : List Event} (h : PrefSafe t) (o d : Int) (i w : Nat) :
    PrefSafe (t ++ [Event.recordDemand o d i w]) := by
  apply prefSafe_extend h
  intro q hq m
  rcases prefix_singleton_cases hq with rfl | rfl <;>
    exact ⟨by simpa using h.rest_count m, by simpa using h.jour_count m⟩

lemma prefSafe_snoc_startJourney {t : List Event} (h : PrefSafe t)
    (hempty : openJourPairs t = []) (j i : Nat) (f : Int) (c : Nat) :
    PrefSafe (t ++ [Event.startJourney j i f c]) := by
  apply prefSafe_extend h
  intro q hq m
  rcases prefix_singleton_cases hq with rfl | rfl
  · exact ⟨by simpa using h.rest_count m, by simpa using h.jour_count m⟩
  · refine ⟨by simpa using h.rest_count m, ?_⟩
    simp only [List.foldl_cons, List.foldl_nil, jourPairsStep_startJourney, hempty,
      List.nil_append]
    exact le_trans (List.countP_le_length _) (by simp)

lemma prefSafe_snoc_endJourney {t : List Event} (h : PrefSafe t) (j : Nat) (f : Int) :
    PrefSafe (t ++ [Event.endJourney j f]) := by
  apply prefSafe_extend h
  intro q hq m
  rcases prefix_singleton_cases hq with rfl | rfl
  · exact ⟨by simpa using h.rest_count m, by simpa using h.jour_count m⟩
  · refine ⟨by simpa using h.rest_count m, ?_⟩
    simp only [List.foldl_cons, List.foldl_nil, jourPairsStep_endJourney]
    exact le_trans ((List.filter_sublist _).countP_le _) (h.jour_count m)

end ElevSim

namespace ElevSim

lemma request_step_inv (sys : ElevatorSystem) (db : DB) (o d : Int)
    (hinv : Inv sys db) (hod : o ≠ d)
    (hrange : 0 ≤ o ∧ o < (sys.num_floors : Int) ∧ 0 ≤ d ∧ d < (sys.num_floors : Int))
    (hne : sys.elevators ≠ []) :
    (∃ eid t, (sys.request_elevator db o d).1 = Except.ok (eid, t)) ∧
    Inv (sys.request_elevator db o d).2.1 (sys.request_elevator db o d).2.2 ∧
    (sys.request_elevator db o d).2.1.num_floors = sys.num_floors ∧
    (sys.request_elevator db o d).2.1.num_elevators = sys.num_elevators ∧
    demandCount (sys.request_elevator db o d).2.2.trace = demandCount db.trace + 1 ∧
    journeyStartCount (sys.request_elevator db o d).2.2.trace = journeyStartCount db.trace + 1 ∧
    journeyEndCount (sys.request_elevator db o d).2.2.trace = journeyEndCount db.trace + 1 := by
  obtain ⟨idx, a, hget, hsel, hmin, hfirst⟩ := selectLoop_none_spec o sys.elevators hne
  have ha_mem : a ∈ sys.elevators := lookup_mem hget
  have ha_idle : a.status = Status.idle := hinv.idle a ha_mem
  have ha_jnone : a.current_journey_id = none := hinv.jnone a ha_mem
  obtain ⟨r, har⟩ : ∃ r, a.current_resting_id = some r := by
    cases hcase : a.current_resting_id with
    | none => exact absurd hcase (hinv.rsome a ha_mem)
    | some r => exact ⟨r, rfl⟩
  have hidx_lt : idx < sys.elevators.length := by
    rcases List.getElem?_eq_some.1 hget with ⟨hlt, _⟩
    exact hlt
  set T := sys.elevators.take idx with hT
  set D := sys.elevators.drop (idx + 1) with hD
  have hdecomp : sys.elevators = T ++ a :: D := eq_take_cons_drop hget
  have htlen : T.length = idx := by
    rw [hT, List.length_take]
    omega
  have hTsub : ∀ x ∈ T, x ∈ sys.elevators := by
    intro x hx
    rw [hT] at hx
    exact List.take_subset _ _ hx
  have hDsub : ∀ x ∈ D, x ∈ sys.elevators := by
    intro x hx
    rw [hD] at hx
    exact List.drop_subset _ _ hx
  set PT := restingPairs T with hPT
  set PD := restingPairs D with hPD
  have h0 : List.Perm (openRestPairs db.trace) (PT ++ (a.id, r) :: PD) := by
    have h1 := hinv.rperm
    rw [hdecomp, restingPairs_append, restingPairs_cons_some a D r har] at h1
    exact h1
  have hmidnodup : ((PT ++ (a.id, r) :: PD).map Prod.snd).Nodup :=
    (h0.map Prod.snd).nodup hinv.rnodup
  obtain ⟨hPT_ne, hPD_ne⟩ := snd_ne_of_nodup_middle hmidnodup
  set dmin := (a.current_floor - o).natAbs with hdmin
  set A1 : Elevator := { a with current_journey_id := some db.nextJourneyId } with hA1
  set DB2 : DB := { db with
      trace := db.trace ++ [Event.recordDemand o d a.id dmin,
                            Event.startJourney db.nextJourneyId a.id a.current_floor 1],
      nextJourneyId := db.nextJourneyId + 1 } with hDB2
  have hsj : a.start_journey (db.record_demand o d a.id dmin) a.current_floor 1 =
      (db.nextJourneyId, A1, DB2) := by
    rw [hA1, hDB2]
    simp [Elevator.start_journey, DB.start_journey, DB.record_demand]
  have hO2 : openRestPairs DB2.trace = openRestPairs db.trace := by
    rw [hDB2]
    simp
  have hJP2 : openJourPairs DB2.trace = [(a.id, db.nextJourneyId)] := by
    rw [hDB2]
    simp [hinv.jempty]
  have hnext2 : DB2.nextRestingId = db.nextRestingId := by rw [hDB2]
  have hpref2 : PrefSafe DB2.trace := by
    have h1 : PrefSafe (db.trace ++ [Event.recordDemand o d a.id dmin]) :=
      prefSafe_snoc_demand hinv.pref o d a.id dmin
    have hempty1 : openJourPairs (db.trace ++ [Event.recordDemand o d a.id dmin]) = [] := by
      simp [hinv.jempty]
    have h2 := prefSafe_snoc_startJourney h1 hempty1 db.nextJourneyId a.id a.current_floor 1
    rw [hDB2]
    simpa using h2
  have hA1st : A1.status = Status.idle := ha_idle
  have hA1r : A1.current_resting_id = some r := har
  have hA1id : A1.id = a.id := rfl
  have hA1j : A1.current_journey_id = some db.nextJourneyId := rfl
  have hmemO : (A1.id, r) ∈ openRestPairs DB2.trace := by
    rw [hO2, hA1id]
    exact (h0.mem_iff).2 (by simp)
  obtain ⟨p1, hel1, hJm1, hPm1, hne1, hmem1, hnodup1, hfresh1, hle1, hprefm1⟩ :=
    move_inv A1 DB2 o r hA1st hA1r hmemO
      (by rw [hO2]; exact hinv.rnodup)
      (by rw [hO2, hnext2]; exact hinv.rfresh)
      hpref2
  have hA2st : (A1.move DB2 o).2.1.status = Status.idle := by rw [hel1]
  have hA2r : (A1.move DB2 o).2.1.current_resting_id = some p1 := by rw [hel1]
  have hA2id : (A1.move DB2 o).2.1.id = a.id := by rw [hel1]
  have hA2f : (A1.move DB2 o).2.1.current_floor = o := by rw [hel1]
  have hA2j : (A1.move DB2 o).2.1.current_journey_id = some db.nextJourneyId := by rw [hel1]
  have hmemO3 : ((A1.move DB2 o).2.1.id, p1) ∈ openRestPairs (A1.move DB2 o).2.2.trace := by
    rw [hA2id]
    exact hmem1
  obtain ⟨p2, hel2, hJm2, hPm2, hne2, hmem2, hnodup2, hfresh2, hle2, hprefm2⟩ :=
    move_inv (A1.move DB2 o).2.1 (A1.move DB2 o).2.2 d p1 hA2st hA2r hmemO3 hnodup1 hfresh1
      hprefm1
  have hA3id : ((A1.move DB2 o).2.1.move (A1.move DB2 o).2.2 d).2.1.id = a.id := by
    rw [hel2]
    exact hA2id
  have hA3j : ((A1.move DB2 o).2.1.move (A1.move DB2 o).2.2 d).2.1.current_journey_id =
      some db.nextJourneyId := by
    rw [hel2]
    exact hA2j
  have hA3f : ((A1.move DB2 o).2.1.move (A1.move DB2 o).2.2 d).2.1.current_floor = d := by
    rw [hel2]
  have hA3st : ((A1.move DB2 o).2.1.move (A1.move DB2 o).2.2 d).2.1.status = Status.idle := by
    rw [hel2]
  have hA3r : ((A1.move DB2 o).2.1.move (A1.move DB2 o).2.2 d).2.1.current_resting_id =
      some p2 := by
    rw [hel2]
  have hej := end_journey_some ((A1.move DB2 o).2.1.move (A1.move DB2 o).2.2 d).2.1
    ((A1.move DB2 o).2.1.move (A1.move DB2 o).2.2 d).2.2 d db.nextJourneyId hA3j
  have hreq := request_ok_unfold sys db o d idx a dmin hod hrange hsel
  simp only [hsj] at hreq
  simp only [hej] at hreq
  set A4 : Elevator :=
    { ((A1.move DB2 o).2.1.move (A1.move DB2 o).2.2 d).2.1 with current_journey_id := none }
    with hA4
  have hA4id : A4.id = a.id := hA3id
  have hA4f : A4.current_floor = d := hA3f
  have hA4st : A4.status = Status.idle := hA3st
  have hA4j : A4.current_journey_id = none := rfl
  have hA4r : A4.current_resting_id = some p2 := hA3r
  have hL' : sys.elevators.set idx A4 = T ++ A4 :: D := by
    conv_lhs => rw [hdecomp]
    rw [← htlen]
    exact set_middle T D a A4
  have hF2 : List.Perm ((openRestPairs DB2.trace).filter (fun p => p.2 ≠ r)) (PT ++ PD) := by
    rw [hO2]
    have h1 := h0.filter (fun p => decide (p.2 ≠ r))
    have hfPT : PT.filter (fun p => decide (p.2 ≠ r)) = PT :=
      List.filter_eq_self.2 (fun x hx => by simpa using hPT_ne x hx)
    have hfPD : PD.filter (fun p => decide (p.2 ≠ r)) = PD :=
      List.filter_eq_self.2 (fun x hx => by simpa using hPD_ne x hx)
    rw [List.filter_append, List.filter_cons, if_neg (by simp), hfPT, hfPD] at h1
    exact h1
  have hF3 : List.Perm
      ((openRestPairs (A1.move DB2 o).2.2.trace).filter (fun p => p.2 ≠ p1)) (PT ++ PD) := by
    have h2 := hPm1.filter (fun p => decide (p.2 ≠ p1))
    have hfF2 : ((openRestPairs DB2.trace).filter (fun p => p.2 ≠ r)).filter
        (fun p => decide (p.2 ≠ p1)) = (openRestPairs DB2.trace).filter (fun p => p.2 ≠ r) :=
      List.filter_eq_self.2 (fun x hx => by simpa using hne1 x hx)
    rw [List.filter_append, List.filter_cons, if_neg (by simp), hfF2] at h2
    simp only [List.filter_nil, List.append_nil] at h2
    exact h2.trans hF2
  have hfin : List.Perm
      (openRestPairs ((A1.move DB2 o).2.1.move (A1.move DB2 o).2.2 d).2.2.trace)
      (PT ++ (a.id, p2) :: PD) := by
    have hstep1 : List.Perm
        ((openRestPairs (A1.move DB2 o).2.2.trace).filter (fun p => p.2 ≠ p1) ++
          [((A1.move DB2 o).2.1.id, p2)])
        ((PT ++ PD) ++ [(a.id, p2)]) := by
      rw [hA2id]
      exact hF3.append_right [(a.id, p2)]
    have hstep2 : List.Perm ((PT ++ PD) ++ [(a.id, p2)]) (PT ++ (a.id, p2) :: PD) := by
      rw [List.append_assoc]
      exact List.Perm.append_left PT (List.perm_append_singleton _ _)
    exact (hPm2.trans hstep1).trans hstep2
  have hJ5 : openJourPairs
      (((A1.move DB2 o).2.1.move (A1.move DB2 o).2.2 d).2.2.trace ++
        [Event.endJourney db.nextJourneyId d]) = [] := by
    rw [openJourPairs_append]
    simp only [List.foldl_cons, List.foldl_nil, jourPairsStep_endJourney]
    rw [hJm2, hJm1, hJP2]
    simp
  have hInv2 : Inv { sys with elevators := sys.elevators.set idx A4 }
      { ((A1.move DB2 o).2.1.move (A1.move DB2 o).2.2 d).2.2 with
          trace := ((A1.move DB2 o).2.1.move (A1.move DB2 o).2.2 d).2.2.trace ++
            [Event.endJourney db.nextJourneyId d] } := by
    refine ⟨?_, ?_, ?_, ?_, ?_, ?_, ?_, ?_, ?_, ?_, ?_⟩
    · show (sys.elevators.set idx A4).map (fun e => e.id) = List.range' 1 sys.num_elevators
      rw [hL', ← hinv.ids]
      conv_rhs => rw [hdecomp]
      simp only [List.map_append, List.map_cons]
      rw [hA4id]
    · intro e he
      replace he : e ∈ sys.elevators.set idx A4 := he
      rw [hL'] at he
      rcases List.mem_append.1 he with he | he
      · exact hinv.idle e (hTsub e he)
      · rcases List.mem_cons.1 he with rfl | he
        · exact hA4st
        · exact hinv.idle e (hDsub e he)
    · intro e he
      replace he : e ∈ sys.elevators.set idx A4 := he
      rw [hL'] at he
      rcases List.mem_append.1 he with he | he
      · exact hinv.lb e (hTsub e he)
      · rcases List.mem_cons.1 he with rfl | he
        · rw [hA4f]
          exact hrange.2.2.1
        · exact hinv.lb e (hDsub e he)
    · intro e he
      replace he : e ∈ sys.elevators.set idx A4 := he
      rw [hL'] at he
      show e.current_floor < (sys.num_floors : Int)
      rcases List.mem_append.1 he with he | he
      · exact hinv.ub e (hTsub e he)
      · rcases List.mem_cons.1 he with rfl | he
        · rw [hA4f]
          exact hrange.2.2.2
        · exact hinv.ub e (hDsub e he)
    · intro e he
      replace he : e ∈ sys.elevators.set idx A4 := he
      rw [hL'] at he
      rcases List.mem_append.1 he with he | he
      · exact hinv.jnone e (hTsub e he)
      · rcases List.mem_cons.1 he with rfl | he
        · exact hA4j
        · exact hinv.jnone e (hDsub e he)
    · intro e he
      replace he : e ∈ sys.elevators.set idx A4 := he
      rw [hL'] at he
      rcases List.mem_append.1 he with he | he
      · exact hinv.rsome e (hTsub e he)
      · rcases List.mem_cons.1 he with rfl | he
        · rw [hA4r]
          simp
        · exact hinv.rsome e (hDsub e he)
    · show List.Perm
        (openRestPairs (((A1.move DB2 o).2.1.move (A1.move DB2 o).2.2 d).2.2.trace ++
          [Event.endJourney db.nextJourneyId d]))
        (restingPairs (sys.elevators.set idx A4))
      have hO5 : openRestPairs
          (((A1.move DB2 o).2.1.move (A1.move DB2 o).2.2 d).2.2.trace ++
            [Event.endJourney db.nextJourneyId d]) =
          openRestPairs ((A1.move DB2 o).2.1.move (A1.move DB2 o).2.2 d).2.2.trace := by
        simp
      rw [hO5, hL', restingPairs_append, restingPairs_cons_some A4 D p2 hA4r, hA4id]
      exact hfin
    · show ((openRestPairs
        (((A1.move DB2 o).2.1.move (A1.move DB2 o).2.2 d).2.2.trace ++
          [Event.endJourney db.nextJourneyId d])).map Prod.snd).Nodup
      have hO5 : openRestPairs
          (((A1.move DB2 o).2.1.move (A1.move DB2 o).2.2 d).2.2.trace ++
            [Event.endJourney db.nextJourneyId d]) =
          openRestPairs ((A1.move DB2 o).2.1.move (A1.move DB2 o).2.2 d).2.2.trace := by
        simp
      rw [hO5]
      exact hnodup2
    · intro p hp
      replace hp : p ∈ openRestPairs
          (((A1.move DB2 o).2.1.move (A1.move DB2 o).2.2 d).2.2.trace ++
            [Event.endJourney db.nextJourneyId d]) := hp
      have hO5 : openRestPairs
          (((A1.move DB2 o).2.1.move (A1.move DB2 o).2.2 d).2.2.trace ++
            [Event.endJourney db.nextJourneyId d]) =
          openRestPairs ((A1.move DB2 o).2.1.move (A1.move DB2 o).2.2 d).2.2.trace := by
        simp
      rw [hO5] at hp
      exact hfresh2 p hp
    · exact hJ5
    · show PrefSafe (((A1.move DB2 o).2.1.move (A1.move DB2 o).2.2 d).2.2.trace ++
        [Event.endJourney db.nextJourneyId d])
      exact prefSafe_snoc_endJourney hprefm2 db.nextJourneyId d
  have hd5 : demandCount ((A1.move DB2 o).2.1.move (A1.move DB2 o).2.2 d).2.2.trace =
      demandCount db.trace + 1 := by
    rw [move_demandCount, move_demandCount, hDB2]
    simp [demandCount, List.countP_cons]
  have hjs5 : journeyStartCount ((A1.move DB2 o).2.1.move (A1.move DB2 o).2.2 d).2.2.trace =
      journeyStartCount db.trace + 1 := by
    rw [move_journeyStartCount, move_journeyStartCount, hDB2]
    simp [journeyStartCount, List.countP_cons]
  have hje5 : journeyEndCount ((A1.move DB2 o).2.1.move (A1.move DB2 o).2.2 d).2.2.trace =
      journeyEndCount db.trace := by
    rw [move_journeyEndCount, move_journeyEndCount, hDB2]
    simp [journeyEndCount, List.countP_cons]
  refine ⟨⟨A4.id, (A1.move DB2 o).1 + ((A1.move DB2 o).2.1.move (A1.move DB2 o).2.2 d).1,
      by rw [hreq]⟩, ?_, by rw [hreq], by rw [hreq], ?_, ?_, ?_⟩
  · rw [hreq]
    exact hInv2
  · rw [hreq]
    show demandCount (((A1.move DB2 o).2.1.move (A1.move DB2 o).2.2 d).2.2.trace ++
      [Event.endJourney db.nextJourneyId d]) = demandCount db.trace + 1
    rw [demandCount_append, hd5]
    simp [demandCount, List.countP_cons]
  · rw [hreq]
    show journeyStartCount (((A1.move DB2 o).2.1.move (A1.move DB2 o).2.2 d).2.2.trace ++
      [Event.endJourney db.nextJourneyId d]) = journeyStartCount db.trace + 1
    rw [journeyStartCount_append, hjs5]
    simp [journeyStartCount, List.countP_cons]
  · rw [hreq]
    show journeyEndCount (((A1.move DB2 o).2.1.move (A1.move DB2 o).2.2 d).2.2.trace ++
      [Event.endJourney db.nextJourneyId d]) = journeyEndCount db.trace + 1
    rw [journeyEndCount_append, hje5]
    simp [journeyEndCount, List.countP_cons]

end ElevSim

namespace ElevSim

lemma request_step_any_inv (sys : ElevatorSystem) (db : DB) (o d : Int) (hinv : Inv sys db) :
    Inv (sys.request_elevator db o d).2.1 (sys.request_elevator db o d).2.2 ∧
    (sys.request_elevator db o d).2.1.num_floors = sys.num_floors ∧
    (sys.request_elevator db o d).2.1.num_elevators = sys.num_elevators := by
  by_cases h1 : o = d ∨ ¬ (0 ≤ o ∧ o < (sys.num_floors : Int) ∧ 0 ≤ d ∧ d < (sys.num_floors : Int))
  · obtain ⟨msg, heq⟩ := request_invalid sys db o d h1
    rw [heq]
    exact ⟨hinv, rfl, rfl⟩
  · push_neg at h1
    by_cases h2 : sys.elevators = []
    · have hsel : selectLoop o sys.elevators 0 none = none := by
        rw [h2]
        rfl
      have heq : sys.request_elevator db o d = (Except.error DispatchError.noneType, sys, db) := by
        rw [ElevatorSystem.request_elevator, if_neg h1.1, if_neg (by simpa using h1.2), hsel]
      rw [heq]
      exact ⟨hinv, rfl, rfl⟩
    · have h3 := request_step_inv sys db o d hinv h1.1 (by simpa using h1.2) h2
      exact ⟨h3.2.1, h3.2.2.1, h3.2.2.2.1⟩

lemma reposition_step_inv (sys : ElevatorSystem) (db : DB) (eid : Nat) (f : Int)
    (hinv : Inv sys db) :
    Inv (sys.move_elevator_to_resting_floor db eid f).2.1
      (sys.move_elevator_to_resting_floor db eid f).2.2 ∧
    (sys.move_elevator_to_resting_floor db eid f).2.1.num_floors = sys.num_floors ∧
    (sys.move_elevator_to_resting_floor db eid f).2.1.num_elevators = sys.num_elevators ∧
    demandCount (sys.move_elevator_to_resting_floor db eid f).2.2.trace = demandCount db.trace ∧
    journeyStartCount (sys.move_elevator_to_resting_floor db eid f).2.2.trace =
      journeyStartCount db.trace ∧
    journeyEndCount (sys.move_elevator_to_resting_floor db eid f).2.2.trace =
      journeyEndCount db.trace := by
  by_cases h : 0 ≤ f ∧ f < (sys.num_floors : Int)
  · rw [reposition_valid sys db eid f h]
    rcases repositionLoop_spec db eid f sys.elevators with ⟨heq, hall⟩ |
      ⟨idx, a, hget, hid, hst, hbefore, heq⟩
    · rw [heq]
      exact ⟨hinv, rfl, rfl, rfl, rfl, rfl⟩
    · rw [heq]
      have ha_mem : a ∈ sys.elevators := lookup_mem hget
      have ha_jnone : a.current_journey_id = none := hinv.jnone a ha_mem
      obtain ⟨r, har⟩ : ∃ r, a.current_resting_id = some r := by
        cases hcase : a.current_resting_id with
        | none => exact absurd hcase (hinv.rsome a ha_mem)
        | some r => exact ⟨r, rfl⟩
      have hidx_lt : idx < sys.elevators.length := by
        rcases List.getElem?_eq_some.1 hget with ⟨hlt, _⟩
        exact hlt
      set T := sys.elevators.take idx with hT
      set D := sys.elevators.drop (idx + 1) with hD
      have hdecomp : sys.elevators = T ++ a :: D := eq_take_cons_drop hget
      have htlen : T.length = idx := by
        rw [hT, List.length_take]
        omega
      have hTsub : ∀ x ∈ T, x ∈ sys.elevators := by
        intro x hx
        rw [hT] at hx
        exact List.take_subset _ _ hx
      have hDsub : ∀ x ∈ D, x ∈ sys.elevators := by
        intro x hx
        rw [hD] at hx
        exact List.drop_subset _ _ hx
      set PT := restingPairs T with hPT
      set PD := restingPairs D with hPD
      have h0 : List.Perm (openRestPairs db.trace) (PT ++ (a.id, r) :: PD) := by
        have h1 := hinv.rperm
        rw [hdecomp, restingPairs_append, restingPairs_cons_some a D r har] at h1
        exact h1
      have hmidnodup : ((PT ++ (a.id, r) :: PD).map Prod.snd).Nodup :=
        (h0.map Prod.snd).nodup hinv.rnodup
      obtain ⟨hPT_ne, hPD_ne⟩ := snd_ne_of_nodup_middle hmidnodup
      have hmemO : (a.id, r) ∈ openRestPairs db.trace := (h0.mem_iff).2 (by simp)
      obtain ⟨p1, hel1, hJm1, hPm1, hne1, hmem1, hnodup1, hfresh1, hle1, hprefm1⟩ :=
        move_inv a db f r hst har hmemO hinv.rnodup hinv.rfresh hinv.pref
      have hA1id : (a.move db f).2.1.id = a.id := by rw [hel1]
      have hA1f : (a.move db f).2.1.current_floor = f := by rw [hel1]
      have hA1st : (a.move db f).2.1.status = Status.idle := by rw [hel1]
      have hA1j : (a.move db f).2.1.current_journey_id = none := by
        rw [hel1]
        exact ha_jnone
      have hA1r : (a.move db f).2.1.current_resting_id = some p1 := by rw [hel1]
      have hL' : sys.elevators.set idx (a.move db f).2.1 = T ++ (a.move db f).2.1 :: D := by
        conv_lhs => rw [hdecomp]
        rw [← htlen]
        exact set_middle T D a (a.move db f).2.1
      have hF2 : List.Perm ((openRestPairs db.trace).filter (fun p => p.2 ≠ r)) (PT ++ PD) := by
        have h1 := h0.filter (fun p => decide (p.2 ≠ r))
        have hfPT : PT.filter (fun p => decide (p.2 ≠ r)) = PT :=
          List.filter_eq_self.2 (fun x hx => by simpa using hPT_ne x hx)
        have hfPD : PD.filter (fun p => decide (p.2 ≠ r)) = PD :=
          List.filter_eq_self.2 (fun x hx => by simpa using hPD_ne x hx)
        rw [List.filter_append, List.filter_cons, if_neg (by simp), hfPT, hfPD] at h1
        exact h1
      have hfin : List.Perm (openRestPairs (a.move db f).2.2.trace)
          (PT ++ (a.id, p1) :: PD) := by
        have hstep1 : List.Perm
            ((openRestPairs db.trace).filter (fun p => p.2 ≠ r) ++ [(a.id, p1)])
            ((PT ++ PD) ++ [(a.id, p1)]) := hF2.append_right [(a.id, p1)]
        have hstep2 : List.Perm ((PT ++ PD) ++ [(a.id, p1)]) (PT ++ (a.id, p1) :: PD) := by
          rw [List.append_assoc]
          exact List.Perm.append_left PT (List.perm_append_singleton _ _)
        exact (hPm1.trans hstep1).trans hstep2
      refine ⟨⟨?_, ?_, ?_, ?_, ?_, ?_, ?_, ?_, ?_, ?_, ?_⟩, rfl, rfl, ?_, ?_, ?_⟩
      · show (sys.elevators.set idx (a.move db f).2.1).map (fun e => e.id) =
          List.range' 1 sys.num_elevators
        rw [hL', ← hinv.ids]
        conv_rhs => rw [hdecomp]
        simp only [List.map_append, List.map_cons]
        rw [hA1id]
      · intro e he
        replace he : e ∈ sys.elevators.set idx (a.move db f).2.1 := he
        rw [hL'] at he
        rcases List.mem_append.1 he with he | he
        · exact hinv.idle e (hTsub e he)
        · rcases List.mem_cons.1 he with rfl | he
          · exact hA1st
          · exact hinv.idle e (hDsub e he)
      · intro e he
        replace he : e ∈ sys.elevators.set idx (a.move db f).2.1 := he
        rw [hL'] at he
        rcases List.mem_append.1 he with he | he
        · exact hinv.lb e (hTsub e he)
        · rcases List.mem_cons.1 he with rfl | he
          · rw [hA1f]
            exact h.1
          · exact hinv.lb e (hDsub e he)
      · intro e he
        replace he : e ∈ sys.elevators.set idx (a.move db f).2.1 := he
        rw [hL'] at he
        show e.current_floor < (sys.num_floors : Int)
        rcases List.mem_append.1 he with he | he
        · exact hinv.ub e (hTsub e he)
        · rcases List.mem_cons.1 he with rfl | he
          · rw [hA1f]
            exact h.2
          · exact hinv.ub e (hDsub e he)
      · intro e he
        replace he : e ∈ sys.elevators.set idx (a.move db f).2.1 := he
        rw [hL'] at he
        rcases List.mem_append.1 he with he | he
        · exact hinv.jnone e (hTsub e he)
        · rcases List.mem_cons.1 he with rfl | he
          · exact hA1j
          · exact hinv.jnone e (hDsub e he)
      · intro e he
        replace he : e ∈ sys.elevators.set idx (a.move db f).2.1 := he
        rw [hL'] at he
        rcases List.mem_append.1 he with he | he
        · exact hinv.rsome e (hTsub e he)
        · rcases List.mem_cons.1 he with rfl | he
          · rw [hA1r]
            simp
          · exact hinv.rsome e (hDsub e he)
      · show List.Perm (openRestPairs (a.move db f).2.2.trace)
          (restingPairs (sys.elevators.set idx (a.move db f).2.1))
        rw [hL', restingPairs_append, restingPairs_cons_some _ D p1 hA1r, hA1id]
        exact hfin
      · exact hnodup1
      · exact hfresh1
      · show openJourPairs (a.move db f).2.2.trace = []
        rw [hJm1]
        exact hinv.jempty
      · exact hprefm1
      · exact move_demandCount a db f
      · exact move_journeyStartCount a db f
      · exact move_journeyEndCount a db f
  · rw [reposition_invalid sys db eid f h]
    exact ⟨hinv, rfl, rfl, rfl, rfl, rfl⟩

end ElevSim

namespace ElevSim

lemma buildFleet_spec (F : Nat) : ∀ (count i : Nat) (db : DB),
    (∀ p ∈ openRestPairs db.trace, p.1 < i) →
    (∀ p ∈ openRestPairs db.trace, p.2 < db.nextRestingId) →
    ((openRestPairs db.trace).map Prod.snd).Nodup →
    (∀ j : Nat, (openRestPairs db.trace).countP (fun p => p.1 = j) ≤ 1) →
    openJourPairs db.trace = [] →
    PrefSafe db.trace →
    (buildFleet F i count db).1.map (fun e => e.id) = List.range' i count ∧
    (∀ e ∈ (buildFleet F i count db).1, e.current_floor = 0 ∧ e.status = Status.idle ∧
      e.current_journey_id = none ∧ e.current_resting_id ≠ none ∧ e.total_floors = F) ∧
    openRestPairs (buildFleet F i count db).2.trace =
      openRestPairs db.trace ++ restingPairs (buildFleet F i count db).1 ∧
    (∀ p ∈ restingPairs (buildFleet F i count db).1, i ≤ p.1 ∧ p.1 < i + count) ∧
    (∀ p ∈ openRestPairs (buildFleet F i count db).2.trace,
      p.2 < (buildFleet F i count db).2.nextRestingId) ∧
    ((openRestPairs (buildFleet F i count db).2.trace).map Prod.snd).Nodup ∧
    (∀ j : Nat, (openRestPairs (buildFleet F i count db).2.trace).countP
      (fun p => p.1 = j) ≤ 1) ∧
    openJourPairs (buildFleet F i count db).2.trace = [] ∧
    PrefSafe (buildFleet F i count db).2.trace ∧
    demandCount (buildFleet F i count db).2.trace = demandCount db.trace ∧
    journeyStartCount (buildFleet F i count db).2.trace = journeyStartCount db.trace ∧
    journeyEndCount (buildFleet F i count db).2.trace = journeyEndCount db.trace := by
  intro count
  induction count with
  | zero =>
    intro i db hids hfresh hnodup hcount hjempty hpref
    refine ⟨rfl, by simp [buildFleet], ?_, by simp [buildFleet, restingPairs], hfresh, hnodup,
      hcount, hjempty, hpref, rfl, rfl, rfl⟩
    simp [buildFleet, restingPairs]
  | succ k ih =>
    intro i db hids hfresh hnodup hcount hjempty hpref
    have hmake : Elevator.make i F db =
        (⟨i, 0, Status.idle, F, some db.nextRestingId, none⟩,
         { db with trace := db.trace ++ [Event.updateStatus i 0 Status.idle,
                                         Event.startResting db.nextRestingId i 0],
                   nextRestingId := db.nextRestingId + 1 }) := by
      simp [Elevator.make, Elevator.start_resting, DB.start_resting_period,
        DB.update_elevator_status]
    have hbuild : buildFleet F i (k + 1) db =
        ((Elevator.make i F db).1 :: (buildFleet F (i + 1) k (Elevator.make i F db).2).1,
         (buildFleet F (i + 1) k (Elevator.make i F db).2).2) := rfl
    set db2 : DB := { db with
        trace := db.trace ++ [Event.updateStatus i 0 Status.idle,
                              Event.startResting db.nextRestingId i 0],
        nextRestingId := db.nextRestingId + 1 } with hdb2
    have hO2 : openRestPairs db2.trace = openRestPairs db.trace ++ [(i, db.nextRestingId)] := by
      rw [hdb2]
      simp
    have hJ2 : openJourPairs db2.trace = [] := by
      rw [hdb2]
      simp [hjempty]
    have hids2 : ∀ p ∈ openRestPairs db2.trace, p.1 < i + 1 := by
      rw [hO2]
      intro p hp
      rcases List.mem_append.1 hp with hp | hp
      · exact lt_trans (hids p hp) (Nat.lt_succ_self _)
      · simp only [List.mem_singleton] at hp
        subst hp
        exact Nat.lt_succ_self _
    have hfresh2 : ∀ p ∈ openRestPairs db2.trace, p.2 < db2.nextRestingId := by
      rw [hO2]
      intro p hp
      show p.2 < db.nextRestingId + 1
      rcases List.mem_append.1 hp with hp | hp
      · exact lt_trans (hfresh p hp) (Nat.lt_succ_self _)
      · simp only [List.mem_singleton] at hp
        subst hp
        exact Nat.lt_succ_self _
    have hnodup2 : ((openRestPairs db2.trace).map Prod.snd).Nodup := by
      rw [hO2, List.map_append, List.nodup_append]
      refine ⟨hnodup, by simp, ?_⟩
      intro x hx
      simp only [List.mem_map] at hx
      obtain ⟨y, hy, rfl⟩ := hx
      simp only [List.map_cons, List.map_nil, List.mem_singleton]
      exact Nat.ne_of_lt (hfresh y hy)
    have hcount2 : ∀ j : Nat, (openRestPairs db2.trace).countP (fun p => p.1 = j) ≤ 1 := by
      intro j
      rw [hO2, List.countP_append]
      by_cases hj : j = i
      · subst hj
        have hz : (openRestPairs db.trace).countP (fun p => p.1 = j) = 0 := by
          rw [List.countP_eq_zero]
          intro p hp
          simp only [decide_eq_true_eq]
          exact Nat.ne_of_lt (hids p hp)
        rw [hz]
        simp [List.countP_cons]
      · have hone : ([(i, db.nextRestingId)] : List (Nat × Nat)).countP
            (fun p => p.1 = j) = 0 := by
          simp [List.countP_cons, hj]
          omega
        rw [hone]
        have := hcount j
        omega
    have hpref2 : PrefSafe db2.trace := by
      rw [hdb2]
      apply prefSafe_extend hpref
      intro q hq m
      have hcases : q = [] ∨ q = [Event.updateStatus i 0 Status.idle] ∨
          q = [Event.updateStatus i 0 Status.idle,
               Event.startResting db.nextRestingId i 0] := by
        rcases List.prefix_cons_iff.1 hq with rfl | ⟨q1, rfl, hq1⟩
        · exact Or.inl rfl
        rcases List.prefix_cons_iff.1 hq1 with rfl | ⟨q2, rfl, hq2⟩
        · exact Or.inr (Or.inl rfl)
        rw [List.prefix_nil.1 hq2]
        exact Or.inr (Or.inr rfl)
      have hcnt : (openRestPairs db.trace ++ [(i, db.nextRestingId)]).countP
          (fun p => p.1 = m) ≤ 1 := by
        have h3 := hcount2 m
        rw [hO2] at h3
        exact h3
      rcases hcases with rfl | rfl | rfl <;>
        refine ⟨?_, ?_⟩ <;>
          simp only [List.foldl_cons, List.foldl_nil, restPairsStep_updateStatus,
            restPairsStep_startResting, jourPairsStep_updateStatus,
            jourPairsStep_startResting] <;>
          first
            | exact hpref.rest_count m
            | exact hpref.jour_count m
            | exact hcnt
    have hdc2 : demandCount db2.trace = demandCount db.trace := by
      rw [hdb2]
      simp [demandCount, List.countP_cons]
    have hjs2 : journeyStartCount db2.trace = journeyStartCount db.trace := by
      rw [hdb2]
      simp [journeyStartCount, List.countP_cons]
    have hje2 : journeyEndCount db2.trace = journeyEndCount db.trace := by
      rw [hdb2]
      simp [journeyEndCount, List.countP_cons]
    have hmk2 : (Elevator.make i F db).2 = db2 := by rw [hmake]
    have hmk1 : (Elevator.make i F db).1 =
        ⟨i, 0, Status.idle, F, some db.nextRestingId, none⟩ := by rw [hmake]
    obtain ⟨ih1, ih2, ih3, ih4, ih5, ih6, ih7, ih8, ih9, ih10, ih11, ih12⟩ :=
      ih (i + 1) db2 hids2 hfresh2 hnodup2 hcount2 hJ2 hpref2
    rw [hbuild, hmk2, hmk1]
    refine ⟨?_, ?_, ?_, ?_, ?_, ?_, ?_, ?_, ?_, ?_, ?_, ?_⟩
    · simp only [List.map_cons, ih1]
      rfl
    · intro e he
      rcases List.mem_cons.1 he with rfl | he
      · exact ⟨rfl, rfl, rfl, by simp, rfl⟩
      · exact ih2 e he
    · rw [ih3, hO2, restingPairs_cons_some _ _ db.nextRestingId rfl]
      simp
    · intro p hp
      rw [restingPairs_cons_some _ _ db.nextRestingId rfl] at hp
      rcases List.mem_cons.1 hp with rfl | hp
      · simp only []
        omega
      · have := ih4 p hp
        omega
    · exact ih5
    · exact ih6
    · exact ih7
    · exact ih8
    · exact ih9
    · rw [ih10, hdc2]
    · rw [ih11, hjs2]
    · rw [ih12, hje2]

end ElevSim

namespace ElevSim

lemma prefSafe_nil : PrefSafe ([] : List Event) := by
  intro p hp i
  rw [List.prefix_nil.1 hp]
  refine ⟨?_, ?_⟩ <;> simp [openR, openJ, openRestPairs, openJourPairs]

lemma make_inv (N F : Nat) (db0 : DB) (hF : 0 < F) :
    Inv (ElevatorSystem.make N F db0).1 (ElevatorSystem.make N F db0).2 ∧
    (ElevatorSystem.make N F db0).1.num_floors = F ∧
    (ElevatorSystem.make N F db0).1.num_elevators = N ∧
    demandCount (ElevatorSystem.make N F db0).2.trace = 0 ∧
    journeyStartCount (ElevatorSystem.make N F db0).2.trace = 0 ∧
    journeyEndCount (ElevatorSystem.make N F db0).2.trace = 0 := by
  obtain ⟨h1, h2, h3, h4, h5, h6, h7, h8, h9, h10, h11, h12⟩ :=
    buildFleet_spec F N 1 DB.fresh (by simp [DB.fresh, openRestPairs])
      (by simp [DB.fresh, openRestPairs]) (by simp [DB.fresh, openRestPairs])
      (by simp [DB.fresh, openRestPairs]) (by simp [DB.fresh, openJourPairs]) prefSafe_nil
  have hfr : (DB.fresh).trace = [] := rfl
  refine ⟨⟨h1, ?_, ?_, ?_, ?_, ?_, ?_, h6, h5, h8, h9⟩, rfl, rfl, ?_, ?_, ?_⟩
  · intro e he
    exact (h2 e he).2.1
  · intro e he
    rw [(h2 e he).1]
  · intro e he
    show e.current_floor < (F : Int)
    rw [(h2 e he).1]
    exact_mod_cast hF
  · intro e he
    exact (h2 e he).2.2.1
  · intro e he
    exact (h2 e he).2.2.2.1
  · show List.Perm (openRestPairs (buildFleet F 1 N DB.fresh).2.trace)
      (restingPairs (buildFleet F 1 N DB.fresh).1)
    rw [h3, hfr]
    rw [openRestPairs_nil, List.nil_append]
  · show demandCount (buildFleet F 1 N DB.fresh).2.trace = 0
    rw [h10, hfr]
    rfl
  · show journeyStartCount (buildFleet F 1 N DB.fresh).2.trace = 0
    rw [h11, hfr]
    rfl
  · show journeyEndCount (buildFleet F 1 N DB.fresh).2.trace = 0
    rw [h12, hfr]
    rfl

lemma step_inv (s : ElevatorSystem × DB) (op : Op) (h : Inv s.1 s.2) :
    Inv (step s op).1 (step s op).2 ∧ (step s op).1.num_floors = s.1.num_floors ∧
    (step s op).1.num_elevators = s.1.num_elevators := by
  obtain ⟨sys, db⟩ := s
  cases op with
  | request o d =>
    have h2 := request_step_any_inv sys db o d h
    exact ⟨h2.1, h2.2.1, h2.2.2⟩
  | reposition i f =>
    have h2 := reposition_step_inv sys db i f h
    exact ⟨h2.1, h2.2.1, h2.2.2.1⟩
  | status => exact ⟨h, rfl, rfl⟩

lemma run_inv (ops : List Op) : ∀ (s : ElevatorSystem × DB), Inv s.1 s.2 →
    Inv (run s ops).1 (run s ops).2 ∧ (run s ops).1.num_floors = s.1.num_floors ∧
    (run s ops).1.num_elevators = s.1.num_elevators := by
  induction ops with
  | nil => exact fun s h => ⟨h, rfl, rfl⟩
  | cons op rest ih =>
    intro s h
    have h1 := step_inv s op h
    have h2 := ih (step s op) h1.1
    exact ⟨h2.1, h2.2.1.trans h1.2.1, h2.2.2.trans h1.2.2⟩

end ElevSim

namespace ElevSim

lemma Inv.elevators_length {sys : ElevatorSystem} {db : DB} (h : Inv sys db) :
    sys.elevators.length = sys.num_elevators := by
  have h2 := congrArg List.length h.ids
  simpa using h2

lemma run_requests_counts (reqs : List (Int × Int)) :
    ∀ (s : ElevatorSystem × DB), Inv s.1 s.2 → 0 < s.1.num_elevators →
    (∀ x ∈ reqs, x.1 ≠ x.2 ∧ 0 ≤ x.1 ∧ x.1 < (s.1.num_floors : Int) ∧ 0 ≤ x.2 ∧
      x.2 < (s.1.num_floors : Int)) →
    demandCount (run s (reqs.map (fun x => Op.request x.1 x.2))).2.trace =
      demandCount s.2.trace + reqs.length ∧
    journeyStartCount (run s (reqs.map (fun x => Op.request x.1 x.2))).2.trace =
      journeyStartCount s.2.trace + reqs.length ∧
    journeyEndCount (run s (reqs.map (fun x => Op.request x.1 x.2))).2.trace =
      journeyEndCount s.2.trace + reqs.length ∧
    Inv (run s (reqs.map (fun x => Op.request x.1 x.2))).1
      (run s (reqs.map (fun x => Op.request x.1 x.2))).2 := by
  induction reqs with
  | nil =>
    intro s hinv _ _
    exact ⟨rfl, rfl, rfl, hinv⟩
  | cons x rest ih =>
    intro s hinv hNE hv
    obtain ⟨sys, db⟩ := s
    replace hinv : Inv sys db := hinv
    replace hNE : 0 < sys.num_elevators := hNE
    replace hv : ∀ y ∈ x :: rest, y.1 ≠ y.2 ∧ 0 ≤ y.1 ∧ y.1 < (sys.num_floors : Int) ∧
        0 ≤ y.2 ∧ y.2 < (sys.num_floors : Int) := hv
    have hx := hv x (List.mem_cons_self _ _)
    have hne : sys.elevators ≠ [] := by
      have hl := hinv.elevators_length
      intro hc
      rw [hc] at hl
      simp only [List.length_nil] at hl
      omega
    have hstep := request_step_inv sys db x.1 x.2 hinv hx.1 hx.2 hne
    have ihr := ih ((sys.request_elevator db x.1 x.2).2.1, (sys.request_elevator db x.1 x.2).2.2)
      hstep.2.1
      (by
        show 0 < (sys.request_elevator db x.1 x.2).2.1.num_elevators
        rw [hstep.2.2.2.1]
        exact hNE)
      (by
        intro y hy
        have hvy := hv y (List.mem_cons_of_mem _ hy)
        show y.1 ≠ y.2 ∧ 0 ≤ y.1 ∧
          y.1 < ((sys.request_elevator db x.1 x.2).2.1.num_floors : Int) ∧ 0 ≤ y.2 ∧
          y.2 < ((sys.request_elevator db x.1 x.2).2.1.num_floors : Int)
        rw [hstep.2.2.1]
        exact hvy)
    refine ⟨?_, ?_, ?_, ?_⟩
    · show demandCount (run ((sys.request_elevator db x.1 x.2).2.1,
          (sys.request_elevator db x.1 x.2).2.2)
          (rest.map (fun y => Op.request y.1 y.2))).2.trace =
        demandCount db.trace + (x :: rest).length
      rw [ihr.1, hstep.2.2.2.2.1]
      simp only [List.length_cons]
      omega
    · show journeyStartCount (run ((sys.request_elevator db x.1 x.2).2.1,
          (sys.request_elevator db x.1 x.2).2.2)
          (rest.map (fun y => Op.request y.1 y.2))).2.trace =
        journeyStartCount db.trace + (x :: rest).length
      rw [ihr.2.1, hstep.2.2.2.2.2.1]
      simp only [List.length_cons]
      omega
    · show journeyEndCount (run ((sys.request_elevator db x.1 x.2).2.1,
          (sys.request_elevator db x.1 x.2).2.2)
          (rest.map (fun y => Op.request y.1 y.2))).2.trace =
        journeyEndCount db.trace + (x :: rest).length
      rw [ihr.2.2.1, hstep.2.2.2.2.2.2]
      simp only [List.length_cons]
      omega
    · show Inv (run ((sys.request_elevator db x.1 x.2).2.1,
          (sys.request_elevator db x.1 x.2).2.2) (rest.map (fun y => Op.request y.1 y.2))).1
        (run ((sys.request_elevator db x.1 x.2).2.1,
          (sys.request_elevator db x.1 x.2).2.2) (rest.map (fun y => Op.request y.1 y.2))).2
      exact ihr.2.2.2

lemma end_journey_fields (e : Elevator) (db : DB) (f : Int) :
    (e.end_journey db f).1.id = e.id ∧ (e.end_journey db f).1.current_floor = e.current_floor ∧
    (e.end_journey db f).1.status = e.status := by
  cases h : e.current_journey_id <;> simp [Elevator.end_journey, h]

lemma request_result (sys : ElevatorSystem) (db : DB) (o d : Int) (idx : Nat) (a : Elevator)
    (hod : o ≠ d)
    (hrange : 0 ≤ o ∧ o < (sys.num_floors : Int) ∧ 0 ≤ d ∧ d < (sys.num_floors : Int))
    (hsel : selectLoop o sys.elevators 0 none = some (idx, a, (a.current_floor - o).natAbs)) :
    (sys.request_elevator db o d).1 =
      Except.ok (a.id, (o - a.current_floor).natAbs + (d - o).natAbs) ∧
    ∃ e2, (sys.request_elevator db o d).2.1.elevators = sys.elevators.set idx e2 ∧
      e2.id = a.id ∧ e2.current_floor = d ∧ e2.status = Status.idle := by
  have hreq := request_ok_unfold sys db o d idx a ((a.current_floor - o).natAbs) hod hrange hsel
  set A1 := (a.start_journey (db.record_demand o d a.id ((a.current_floor - o).natAbs))
    a.current_floor 1).2.1 with hA1
  set DB2 := (a.start_journey (db.record_demand o d a.id ((a.current_floor - o).natAbs))
    a.current_floor 1).2.2 with hDB2
  have hA1fl : A1.current_floor = a.current_floor := rfl
  have hA1id : A1.id = a.id := rfl
  have hmv1t : (A1.move DB2 o).1 = (o - a.current_floor).natAbs := by
    rw [move_dist, hA1fl]
  have hmv1fl : (A1.move DB2 o).2.1.current_floor = o := move_floor A1 DB2 o
  have hmv1id : (A1.move DB2 o).2.1.id = a.id := by
    rw [move_id, hA1id]
  have hmv2t : ((A1.move DB2 o).2.1.move (A1.move DB2 o).2.2 d).1 = (d - o).natAbs := by
    rw [move_dist, hmv1fl]
  have hmv2fl : ((A1.move DB2 o).2.1.move (A1.move DB2 o).2.2 d).2.1.current_floor = d :=
    move_floor _ _ d
  have hmv2id : ((A1.move DB2 o).2.1.move (A1.move DB2 o).2.2 d).2.1.id = a.id := by
    rw [move_id, hmv1id]
  have hmv2st : ((A1.move DB2 o).2.1.move (A1.move DB2 o).2.2 d).2.1.status = Status.idle := by
    apply move_status
    rw [hmv1fl]
    exact hod
  have hej := end_journey_fields ((A1.move DB2 o).2.1.move (A1.move DB2 o).2.2 d).2.1
    ((A1.move DB2 o).2.1.move (A1.move DB2 o).2.2 d).2.2 d
  constructor
  · rw [hreq]
    show Except.ok
      ((((A1.move DB2 o).2.1.move (A1.move DB2 o).2.2 d).2.1.end_journey
        ((A1.move DB2 o).2.1.move (A1.move DB2 o).2.2 d).2.2 d).1.id,
       (A1.move DB2 o).1 + ((A1.move DB2 o).2.1.move (A1.move DB2 o).2.2 d).1) = _
    rw [hej.1, hmv2id, hmv1t, hmv2t]
  · refine ⟨(((A1.move DB2 o).2.1.move (A1.move DB2 o).2.2 d).2.1.end_journey
      ((A1.move DB2 o).2.1.move (A1.move DB2 o).2.2 d).2.2 d).1, ?_, ?_, ?_, ?_⟩
    · rw [hreq]
    · rw [hej.1, hmv2id]
    · rw [hej.2.1, hmv2fl]
    · rw [hej.2.2, hmv2st]

end ElevSim

namespace ElevSim

lemma natAbs_sub_comm (x y : Int) : (x - y).natAbs = (y - x).natAbs := by
  rw [← Int.natAbs_neg, neg_sub]

lemma mem_set_self {α : Type} : ∀ {l : List α} {n : Nat} (a : α), n < l.length → a ∈ l.set n a := by
  intro l
  induction l with
  | nil => intro n a h; simp at h
  | cons x xs ih =>
    intro n a h
    cases n with
    | zero => simp
    | succ k =>
      have h2 : k < xs.length := by simpa using h
      exact List.mem_cons_of_mem _ (ih a h2)

lemma openJ_snoc_startJourney (t : List Event) (j e : Nat) (f : Int) (c : Nat) :
    openJ e (t ++ [Event.startJourney j e f c]) = openJ e t ++ [j] := by
  simp [openJ]

lemma ids_lookup {sys : ElevatorSystem}
    (hids : sys.elevators.map (fun e => e.id) = List.range' 1 sys.num_elevators)
    {j : Nat} {e : Elevator} (h : sys.elevators[j]? = some e) : e.id = 1 + j := by
  have h1 : (sys.elevators.map (fun e => e.id))[j]? = some e.id := by
    rw [List.getElem?_map, h]
    rfl
  rw [hids] at h1
  have hj : j < sys.num_elevators := by
    rcases List.getElem?_eq_some.1 h with ⟨hlt, _⟩
    have h2 := congrArg List.length hids
    simp only [List.length_map, List.length_range'] at h2
    omega
  rw [List.getElem?_range' 1 1 hj] at h1
  simp only [Nat.one_mul, Option.some.injEq] at h1
  exact h1.symm

end ElevSim

namespace ElevSim

/-- C1 (counterexample): the claim says a Journey and a RestingPeriod are never both
open simultaneously for the same elevator; but during `request_elevator` on a fresh
1-elevator, 3-floor fleet, at the observable instant right after the `start_journey`
notification (trace prefix of length 4) elevator 1 has both an open journey and an
open resting period. -/
theorem C1_counterexample :
    openJ 1 ((((ElevatorSystem.make 1 3 DB.fresh).1.request_elevator
        (ElevatorSystem.make 1 3 DB.fresh).2 1 2).2.2.trace).take 4) ≠ [] ∧
    openR 1 ((((ElevatorSystem.make 1 3 DB.fresh).1.request_elevator
        (ElevatorSystem.make 1 3 DB.fresh).2 1 2).2.2.trace).take 4) ≠ [] ∧
    (((ElevatorSystem.make 1 3 DB.fresh).1.request_elevator
        (ElevatorSystem.make 1 3 DB.fresh).2 1 2).2.2.trace).take 4 <+:
      ((ElevatorSystem.make 1 3 DB.fresh).1.request_elevator
        (ElevatorSystem.make 1 3 DB.fresh).2 1 2).2.2.trace :=
  ⟨by decide, by decide, List.take_prefix _ _⟩

/-- C1 (amended): for every fleet freshly initialized with a positive floor count and
every sequence of public Dispatcher operations, at every observable instant (every
prefix of the Event Sink notification trace) each elevator has at most one open
Journey and at most one open RestingPeriod. (The original claim's further "never
both simultaneously open" is refuted by the counterexample: the journey opens
before the resting period is closed.) -/
theorem C1_amended (numE numF : Nat) (ops : List Op) (hF : 0 < numF)
    (p : List Event)
    (hp : p <+: (run (ElevatorSystem.make numE numF DB.fresh) ops).2.trace)
    (eid : Nat) :
    (openR eid p).length ≤ 1 ∧ (openJ eid p).length ≤ 1 := by
  have h1 := make_inv numE numF DB.fresh hF
  have h2 := run_inv ops (ElevatorSystem.make numE numF DB.fresh) h1.1
  exact h2.1.pref p hp eid

/-- Witness for C1_amended at a concrete run. -/
theorem C1_amended_witness :
    (openR 1 (((run (ElevatorSystem.make 1 3 DB.fresh) [Op.request 1 2]).2.trace).take 4)).length ≤ 1 ∧
    (openJ 1 (((run (ElevatorSystem.make 1 3 DB.fresh) [Op.request 1 2]).2.trace).take 4)).length ≤ 1 :=
  C1_amended 1 3 [Op.request 1 2] (by decide) _ (List.take_prefix _ _) 1

/-- C2 (counterexample): the claim says `start_journey` on an elevator with an open
journey fails with InvalidStateError and never replaces the handle; but on a fresh
elevator, the second `start_journey` call returns normally with a fresh handle (2),
replaces the stored handle, and leaves the first journey open (both 1 and 2 are open
in the sink afterwards). -/
theorem C2_counterexample :
    ((Elevator.make 1 10 DB.fresh).1.start_journey
      (Elevator.make 1 10 DB.fresh).2 0 1).2.1.current_journey_id = some 1 ∧
    (((Elevator.make 1 10 DB.fresh).1.start_journey
        (Elevator.make 1 10 DB.fresh).2 0 1).2.1.start_journey
      ((Elevator.make 1 10 DB.fresh).1.start_journey
        (Elevator.make 1 10 DB.fresh).2 0 1).2.2 0 1).1 = 2 ∧
    (((Elevator.make 1 10 DB.fresh).1.start_journey
        (Elevator.make 1 10 DB.fresh).2 0 1).2.1.start_journey
      ((Elevator.make 1 10 DB.fresh).1.start_journey
        (Elevator.make 1 10 DB.fresh).2 0 1).2.2 0 1).2.1.current_journey_id = some 2 ∧
    openJ 1 (((Elevator.make 1 10 DB.fresh).1.start_journey
        (Elevator.make 1 10 DB.fresh).2 0 1).2.1.start_journey
      ((Elevator.make 1 10 DB.fresh).1.start_journey
        (Elevator.make 1 10 DB.fresh).2 0 1).2.2 0 1).2.2.trace = [1, 2] := by
  decide

/-- C2 (amended): calling `start_journey` on an elevator that already has an open
journey never fails: it allocates the next journey handle, silently overwrites the
stored handle with it, appends only the start-journey notification to the trace
(so this call closes nothing), and the elevator's set of open journeys in the sink
grows by the new handle — the previously open journey stays open. -/
theorem C2_amended (e : Elevator) (db : DB) (f : Int) (j0 : Nat)
    (h : e.current_journey_id = some j0) :
    (e.start_journey db f 1).1 = db.nextJourneyId ∧
    (e.start_journey db f 1).2.1.current_journey_id = some db.nextJourneyId ∧
    (e.start_journey db f 1).2.2.trace =
      db.trace ++ [Event.startJourney db.nextJourneyId e.id f 1] ∧
    openJ e.id (e.start_journey db f 1).2.2.trace = openJ e.id db.trace ++ [db.nextJourneyId] := by
  refine ⟨rfl, rfl, rfl, ?_⟩
  exact openJ_snoc_startJourney db.trace db.nextJourneyId e.id f 1

/-- Witness for C2_amended on a concrete elevator with journey 1 open. -/
theorem C2_amended_witness :
    ((⟨1, 0, Status.idle, 10, some 1, some 1⟩ : Elevator).start_journey DB.fresh 0 1).1 =
      DB.fresh.nextJourneyId ∧
    ((⟨1, 0, Status.idle, 10, some 1, some 1⟩ : Elevator).start_journey
      DB.fresh 0 1).2.1.current_journey_id = some DB.fresh.nextJourneyId ∧
    ((⟨1, 0, Status.idle, 10, some 1, some 1⟩ : Elevator).start_journey DB.fresh 0 1).2.2.trace =
      DB.fresh.trace ++ [Event.startJourney DB.fresh.nextJourneyId 1 0 1] ∧
    openJ 1 ((⟨1, 0, Status.idle, 10, some 1, some 1⟩ : Elevator).start_journey
        DB.fresh 0 1).2.2.trace =
      openJ 1 DB.fresh.trace ++ [DB.fresh.nextJourneyId] :=
  C2_amended ⟨1, 0, Status.idle, 10, some 1, some 1⟩ DB.fresh 0 1 rfl

/-- C3 (counterexample): the claim says `move_elevator_to_resting_floor` returns a
boolean and never raises, returning false for a same-floor no-op and false for an
out-of-range floor; but on a fresh 3-elevator, 10-floor fleet the same-floor call
`(1, 0)` returns True, and the out-of-range call `(1, 10)` raises ValueError. -/
theorem C3_counterexample :
    ((ElevatorSystem.make 3 10 DB.fresh).1.move_elevator_to_resting_floor
      (ElevatorSystem.make 3 10 DB.fresh).2 1 0).1 = Except.ok true ∧
    ((ElevatorSystem.make 3 10 DB.fresh).1.move_elevator_to_resting_floor
      (ElevatorSystem.make 3 10 DB.fresh).2 1 10).1 =
      Except.error (DispatchError.invalidRequest "Floor must be between 0 and num_floors - 1") := by
  decide

/-- C3 (amended): `move_elevator_to_resting_floor` raises ValueError (instead of
returning a boolean) when the target floor is out of range, leaving the state
untouched; for an in-range floor it returns true exactly when the fleet contains an
idle elevator with the given id — including the same-floor no-op case — and then
that elevator ends at the target floor; it returns false (state unchanged) when the
id matches no elevator or the matched elevator is not idle. -/
theorem C3_amended (sys : ElevatorSystem) (db : DB) (eid : Nat) (f : Int) :
    (¬ (0 ≤ f ∧ f < (sys.num_floors : Int)) →
      sys.move_elevator_to_resting_floor db eid f =
        (Except.error (DispatchError.invalidRequest "Floor must be between 0 and num_floors - 1"),
         sys, db)) ∧
    ((0 ≤ f ∧ f < (sys.num_floors : Int)) →
      ∃ b sys2 db2, sys.move_elevator_to_resting_floor db eid f = (Except.ok b, sys2, db2) ∧
        (b = true ↔ ∃ e ∈ sys.elevators, e.id = eid ∧ e.status = Status.idle) ∧
        (b = true → ∃ e ∈ sys2.elevators, e.id = eid ∧ e.current_floor = f) ∧
        (b = false → sys2 = sys ∧ db2 = db)) := by
  constructor
  · intro h
    exact reposition_invalid sys db eid f h
  · intro h
    rw [reposition_valid sys db eid f h]
    rcases repositionLoop_spec db eid f sys.elevators with ⟨heq, hall⟩ |
      ⟨idx, e, hget, hid, hst, hbefore, heq⟩
    · rw [heq]
      refine ⟨false, sys, db, rfl, ?_, ?_, fun _ => ⟨rfl, rfl⟩⟩
      · constructor
        · intro hc
          exact absurd hc (by simp)
        · rintro ⟨e, he, h1, h2⟩
          exact ((hall e he) ⟨h1, h2⟩).elim
      · intro hc
        exact absurd hc (by simp)
    · rw [heq]
      have hlt : idx < sys.elevators.length := by
        rcases List.getElem?_eq_some.1 hget with ⟨hl, _⟩
        exact hl
      refine ⟨true, _, _, rfl, ?_, ?_, ?_⟩
      · exact Iff.intro (fun _ => ⟨e, lookup_mem hget, hid, hst⟩) (fun _ => rfl)
      · intro _
        refine ⟨(e.move db f).2.1, ?_, ?_, ?_⟩
        · exact mem_set_self _ hlt
        · rw [move_id]
          exact hid
        · exact move_floor e db f
      · intro hc
        exact absurd hc (by simp)

/-- Witness for C3_amended: fresh 3-elevator, 10-floor fleet, repositioning
elevator 2 to floor 5. -/
theorem C3_amended_witness :
    ∃ b sys2 db2, (ElevatorSystem.make 3 10 DB.fresh).1.move_elevator_to_resting_floor
        (ElevatorSystem.make 3 10 DB.fresh).2 2 5 = (Except.ok b, sys2, db2) ∧
      (b = true ↔ ∃ e ∈ (ElevatorSystem.make 3 10 DB.fresh).1.elevators,
        e.id = 2 ∧ e.status = Status.idle) ∧
      (b = true → ∃ e ∈ sys2.elevators, e.id = 2 ∧ e.current_floor = 5) ∧
      (b = false → sys2 = (ElevatorSystem.make 3 10 DB.fresh).1 ∧
        db2 = (ElevatorSystem.make 3 10 DB.fresh).2) :=
  (C3_amended (ElevatorSystem.make 3 10 DB.fresh).1 (ElevatorSystem.make 3 10 DB.fresh).2
    2 5).2 (by decide)

end ElevSim

namespace ElevSim

/-- C4: for every valid request (distinct in-range floors) on a non-empty fleet whose
elevator ids lie in `[1, num_elevators]`, `request_elevator` returns an elevator id in
`[1, num_elevators]` and a total time `t ≥ 0` equal to the assigned elevator's
pre-move pickup distance plus the delivery distance, and afterwards the fleet
contains the returned elevator at the destination floor with status idle. -/
theorem C4 (sys : ElevatorSystem) (db : DB) (o d : Int)
    (hids : ∀ e ∈ sys.elevators, 1 ≤ e.id ∧ e.id ≤ sys.num_elevators)
    (hne : sys.elevators ≠ []) (hod : o ≠ d)
    (hrange : 0 ≤ o ∧ o < (sys.num_floors : Int) ∧ 0 ≤ d ∧ d < (sys.num_floors : Int)) :
    ∃ eid t, (sys.request_elevator db o d).1 = Except.ok (eid, t) ∧
      1 ≤ eid ∧ eid ≤ sys.num_elevators ∧ 0 ≤ t ∧
      (∃ a, a ∈ sys.elevators ∧ a.id = eid ∧
        t = (a.current_floor - o).natAbs + (o - d).natAbs) ∧
      ∃ e2, e2 ∈ (sys.request_elevator db o d).2.1.elevators ∧
        e2.id = eid ∧ e2.current_floor = d ∧ e2.status = Status.idle := by
  obtain ⟨idx, a, hget, hsel, hmin, hfirst⟩ := selectLoop_none_spec o sys.elevators hne
  have hres := request_result sys db o d idx a hod hrange hsel
  have hamem := lookup_mem hget
  have hlt : idx < sys.elevators.length := by
    rcases List.getElem?_eq_some.1 hget with ⟨hl, _⟩
    exact hl
  refine ⟨a.id, (o - a.current_floor).natAbs + (d - o).natAbs, hres.1, (hids a hamem).1,
    (hids a hamem).2, Nat.zero_le _, ⟨a, hamem, rfl, ?_⟩, ?_⟩
  · rw [natAbs_sub_comm a.current_floor o, natAbs_sub_comm o d]
  · obtain ⟨e2, h1, h2, h3, h4⟩ := hres.2
    refine ⟨e2, ?_, h2, h3, h4⟩
    rw [h1]
    exact mem_set_self e2 hlt

/-- Witness for C4 at the spec's concrete scenario: fresh 3-elevator, 10-floor
fleet, request (3, 7). -/
theorem C4_witness :
    ∃ eid t, ((ElevatorSystem.make 3 10 DB.fresh).1.request_elevator
        (ElevatorSystem.make 3 10 DB.fresh).2 3 7).1 = Except.ok (eid, t) ∧
      1 ≤ eid ∧ eid ≤ (ElevatorSystem.make 3 10 DB.fresh).1.num_elevators ∧ 0 ≤ t ∧
      (∃ a, a ∈ (ElevatorSystem.make 3 10 DB.fresh).1.elevators ∧ a.id = eid ∧
        t = (a.current_floor - 3).natAbs + ((3 : Int) - 7).natAbs) ∧
      ∃ e2, e2 ∈ ((ElevatorSystem.make 3 10 DB.fresh).1.request_elevator
          (ElevatorSystem.make 3 10 DB.fresh).2 3 7).2.1.elevators ∧
        e2.id = eid ∧ e2.current_floor = 7 ∧ e2.status = Status.idle :=
  C4 (ElevatorSystem.make 3 10 DB.fresh).1 (ElevatorSystem.make 3 10 DB.fresh).2 3 7
    (by decide) (by decide) (by decide) (by decide)

/-- C5: on a non-empty fleet, `request_elevator` fails exactly when the floors are
equal or one of them is out of `[0, num_floors)`; the failure is the ValueError
(invalid-request) error, and in every failing case the system and sink are returned
untouched (no elevator assigned, nothing recorded). -/
theorem C5 (sys : ElevatorSystem) (db : DB) (o d : Int) (hne : sys.elevators ≠ []) :
    ((∃ err, (sys.request_elevator db o d).1 = Except.error err) ↔
      (o = d ∨ ¬ (0 ≤ o ∧ o < (sys.num_floors : Int) ∧ 0 ≤ d ∧ d < (sys.num_floors : Int)))) ∧
    ((o = d ∨ ¬ (0 ≤ o ∧ o < (sys.num_floors : Int) ∧ 0 ≤ d ∧ d < (sys.num_floors : Int))) →
      ∃ msg, sys.request_elevator db o d =
        (Except.error (DispatchError.invalidRequest msg), sys, db)) := by
  constructor
  · constructor
    · rintro ⟨err, herr⟩
      by_contra hc
      push_neg at hc
      obtain ⟨hod, hrange⟩ := hc
      obtain ⟨idx, a, hget, hsel, hmin, hfirst⟩ := selectLoop_none_spec o sys.elevators hne
      have hok := (request_result sys db o d idx a hod hrange hsel).1
      rw [hok] at herr
      simp at herr
    · intro h
      obtain ⟨msg, heq⟩ := request_invalid sys db o d h
      exact ⟨DispatchError.invalidRequest msg, by rw [heq]⟩
  · intro h
    exact request_invalid sys db o d h

/-- Witness for C5 at the spec's boundary case (3, 3). -/
theorem C5_witness :
    ∃ msg, (ElevatorSystem.make 3 10 DB.fresh).1.request_elevator
        (ElevatorSystem.make 3 10 DB.fresh).2 3 3 =
      (Except.error (DispatchError.invalidRequest msg), (ElevatorSystem.make 3 10 DB.fresh).1,
       (ElevatorSystem.make 3 10 DB.fresh).2) :=
  (C5 (ElevatorSystem.make 3 10 DB.fresh).1 (ElevatorSystem.make 3 10 DB.fresh).2 3 3
    (by decide)).2 (Or.inl rfl)

/-- C6: for every valid request, the elevator assigned by `request_elevator` is the
one minimizing the absolute distance of its current floor to the origin, ties broken
by the first elevator encountered (equivalently, with ids ascending from 1, the
lowest id among the minimizers), and the scan depends only on the elevators'
current floors — an elevator is never excluded for its status (busy or direction). -/
theorem C6 (sys : ElevatorSystem) (db : DB) (o d : Int)
    (hids : sys.elevators.map (fun e => e.id) = List.range' 1 sys.num_elevators)
    (hne : sys.elevators ≠ []) (hod : o ≠ d)
    (hrange : 0 ≤ o ∧ o < (sys.num_floors : Int) ∧ 0 ≤ d ∧ d < (sys.num_floors : Int)) :
    ∃ idx a, sys.elevators[idx]? = some a ∧
      (sys.request_elevator db o d).1 =
        Except.ok (a.id, (o - a.current_floor).natAbs + (d - o).natAbs) ∧
      (∀ (m : Nat) (em : Elevator), sys.elevators[m]? = some em →
        (a.current_floor - o).natAbs ≤ (em.current_floor - o).natAbs) ∧
      (∀ (m : Nat) (em : Elevator), m < idx → sys.elevators[m]? = some em →
        (a.current_floor - o).natAbs < (em.current_floor - o).natAbs) ∧
      (∀ (m : Nat) (em : Elevator), sys.elevators[m]? = some em →
        (em.current_floor - o).natAbs = (a.current_floor - o).natAbs → a.id ≤ em.id) ∧
      (∀ fleet2 : List Elevator,
        fleet2.map (fun e => e.current_floor) = sys.elevators.map (fun e => e.current_floor) →
        Option.map (fun x => (x.1, x.2.2)) (selectLoop o fleet2 0 none) =
          Option.map (fun x => (x.1, x.2.2)) (selectLoop o sys.elevators 0 none)) := by
  obtain ⟨idx, a, hget, hsel, hmin, hfirst⟩ := selectLoop_none_spec o sys.elevators hne
  have hres := request_result sys db o d idx a hod hrange hsel
  refine ⟨idx, a, hget, hres.1, hmin, hfirst, ?_, ?_⟩
  · intro m em hm hdist
    have haid := ids_lookup hids hget
    have hemid := ids_lookup hids hm
    by_cases hmi : m < idx
    · have := hfirst m em hmi hm
      omega
    · omega
  · intro fleet2 hmap
    exact selectLoop_floors_only o fleet2 sys.elevators 0 none none hmap rfl

/-- Witness for C6: fresh 3-elevator, 10-floor fleet, request (3, 7). -/
theorem C6_witness :
    ∃ idx a, (ElevatorSystem.make 3 10 DB.fresh).1.elevators[idx]? = some a ∧
      ((ElevatorSystem.make 3 10 DB.fresh).1.request_elevator
        (ElevatorSystem.make 3 10 DB.fresh).2 3 7).1 =
        Except.ok (a.id, ((3 : Int) - a.current_floor).natAbs + ((7 : Int) - 3).natAbs) ∧
      (∀ (m : Nat) (em : Elevator),
        (ElevatorSystem.make 3 10 DB.fresh).1.elevators[m]? = some em →
        (a.current_floor - 3).natAbs ≤ (em.current_floor - 3).natAbs) ∧
      (∀ (m : Nat) (em : Elevator), m < idx →
        (ElevatorSystem.make 3 10 DB.fresh).1.elevators[m]? = some em →
        (a.current_floor - 3).natAbs < (em.current_floor - 3).natAbs) ∧
      (∀ (m : Nat) (em : Elevator),
        (ElevatorSystem.make 3 10 DB.fresh).1.elevators[m]? = some em →
        (em.current_floor - 3).natAbs = (a.current_floor - 3).natAbs → a.id ≤ em.id) ∧
      (∀ fleet2 : List Elevator,
        fleet2.map (fun e => e.current_floor) =
          (ElevatorSystem.make 3 10 DB.fresh).1.elevators.map (fun e => e.current_floor) →
        Option.map (fun x => (x.1, x.2.2)) (selectLoop 3 fleet2 0 none) =
          Option.map (fun x => (x.1, x.2.2))
            (selectLoop 3 (ElevatorSystem.make 3 10 DB.fresh).1.elevators 0 none)) :=
  C6 (ElevatorSystem.make 3 10 DB.fresh).1 (ElevatorSystem.make 3 10 DB.fresh).2 3 7
    (by decide) (by decide) (by decide) (by decide)

/-- C7: moving an elevator to the floor it is already on is a complete no-op: it
returns 0 elapsed distance and leaves the elevator (floor, status, open handles) and
the Event Sink (no notifications, no resting-period churn) exactly unchanged. -/
theorem C7 (e : Elevator) (db : DB) : e.move db e.current_floor = (0, e, db) :=
  move_noop e db

/-- C8: starting from a freshly initialized fleet (positive elevator and floor
counts), after a sequence of valid `request_elevator` calls the Event Sink holds
exactly one demand record per request, exactly one opened journey per request and
exactly one closed journey per request, and no journey is left open for any
elevator. -/
theorem C8 (numE numF : Nat) (reqs : List (Int × Int)) (hE : 0 < numE) (hF : 0 < numF)
    (hv : ∀ x ∈ reqs, x.1 ≠ x.2 ∧ 0 ≤ x.1 ∧ x.1 < (numF : Int) ∧ 0 ≤ x.2 ∧
      x.2 < (numF : Int)) :
    demandCount (run (ElevatorSystem.make numE numF DB.fresh)
      (reqs.map (fun x => Op.request x.1 x.2))).2.trace = reqs.length ∧
    journeyStartCount (run (ElevatorSystem.make numE numF DB.fresh)
      (reqs.map (fun x => Op.request x.1 x.2))).2.trace = reqs.length ∧
    journeyEndCount (run (ElevatorSystem.make numE numF DB.fresh)
      (reqs.map (fun x => Op.request x.1 x.2))).2.trace = reqs.length ∧
    ∀ eid, openJ eid (run (ElevatorSystem.make numE numF DB.fresh)
      (reqs.map (fun x => Op.request x.1 x.2))).2.trace = [] := by
  have hmk := make_inv numE numF DB.fresh hF
  have h := run_requests_counts reqs (ElevatorSystem.make numE numF DB.fresh) hmk.1
    (by rw [hmk.2.2.1]; exact hE)
    (by
      intro x hx
      have hvx := hv x hx
      rw [hmk.2.1]
      exact hvx)
  refine ⟨?_, ?_, ?_, ?_⟩
  · rw [h.1, hmk.2.2.2.1]
    omega
  · rw [h.2.1, hmk.2.2.2.2.1]
    omega
  · rw [h.2.2.1, hmk.2.2.2.2.2]
    omega
  · intro eid
    have hj := h.2.2.2.jempty
    simp [openJ, hj]

/-- Witness for C8 at a concrete single-request run. -/
theorem C8_witness :
    demandCount (run (ElevatorSystem.make 1 3 DB.fresh)
      ([((1 : Int), (2 : Int))].map (fun x => Op.request x.1 x.2))).2.trace =
      [((1 : Int), (2 : Int))].length ∧
    journeyStartCount (run (ElevatorSystem.make 1 3 DB.fresh)
      ([((1 : Int), (2 : Int))].map (fun x => Op.request x.1 x.2))).2.trace =
      [((1 : Int), (2 : Int))].length ∧
    journeyEndCount (run (ElevatorSystem.make 1 3 DB.fresh)
      ([((1 : Int), (2 : Int))].map (fun x => Op.request x.1 x.2))).2.trace =
      [((1 : Int), (2 : Int))].length ∧
    openJ 1 (run (ElevatorSystem.make 1 3 DB.fresh)
      ([((1 : Int), (2 : Int))].map (fun x => Op.request x.1 x.2))).2.trace = [] :=
  ⟨(C8 1 3 [((1 : Int), (2 : Int))] (by decide) (by decide) (by decide)).1,
   (C8 1 3 [((1 : Int), (2 : Int))] (by decide) (by decide) (by decide)).2.1,
   (C8 1 3 [((1 : Int), (2 : Int))] (by decide) (by decide) (by decide)).2.2.1,
   (C8 1 3 [((1 : Int), (2 : Int))] (by decide) (by decide) (by decide)).2.2.2 1⟩

/-- C9: starting from a freshly initialized fleet with a positive floor count, after
every sequence of public Dispatcher operations (requests, idle repositioning, status
queries) every elevator's current floor satisfies `0 ≤ floor < num_floors`, even
though `Elevator.move` itself performs no range check. -/
theorem C9 (numE numF : Nat) (ops : List Op) (hF : 0 < numF) :
    ∀ e ∈ (run (ElevatorSystem.make numE numF DB.fresh) ops).1.elevators,
      0 ≤ e.current_floor ∧ e.current_floor < (numF : Int) := by
  have hmk := make_inv numE numF DB.fresh hF
  have h := run_inv ops (ElevatorSystem.make numE numF DB.fresh) hmk.1
  intro e he
  refine ⟨h.1.lb e he, ?_⟩
  have hub := h.1.ub e he
  rw [h.2.1, hmk.2.1] at hub
  exact hub

/-- Witness for C9 at a concrete run: the single elevator ends at floor 2 of 3. -/
theorem C9_witness :
    0 ≤ (⟨1, 2, Status.idle, 3, some 3, none⟩ : Elevator).current_floor ∧
    (⟨1, 2, Status.idle, 3, some 3, none⟩ : Elevator).current_floor < (3 : Int) :=
  C9 1 3 [Op.request 1 2] (by decide) ⟨1, 2, Status.idle, 3, some 3, none⟩ (by decide)

/-- C10: when `request_elevator` fails validation (equal floors or an out-of-range
floor) the call is atomic: it returns the ValueError with the system and sink
exactly as they were — no demand recorded, no journey opened, no elevator state
changed. -/
theorem C10 (sys : ElevatorSystem) (db : DB) (o d : Int)
    (h : o = d ∨ ¬ (0 ≤ o ∧ o < (sys.num_floors : Int) ∧ 0 ≤ d ∧ d < (sys.num_floors : Int))) :
    ∃ msg, sys.request_elevator db o d =
      (Except.error (DispatchError.invalidRequest msg), sys, db) :=
  request_invalid sys db o d h

/-- Witness for C10 at the spec's out-of-range boundary case (0, num_floors). -/
theorem C10_witness :
    ∃ msg, (ElevatorSystem.make 3 10 DB.fresh).1.request_elevator
        (ElevatorSystem.make 3 10 DB.fresh).2 0 10 =
      (Except.error (DispatchError.invalidRequest msg), (ElevatorSystem.make 3 10 DB.fresh).1,
       (ElevatorSystem.make 3 10 DB.fresh).2) :=
  C10 (ElevatorSystem.make 3 10 DB.fresh).1 (ElevatorSystem.make 3 10 DB.fresh).2 0 10
    (Or.inr (by decide))

end ElevSim
